import Mathlib

/-!
# cpufreq-sc8810: a shallow embedding of the DVFS driver

The driver `cpufreq-sc8810.c` changes the clock and the voltage rail of a single
Cortex-A5 core.  This file embeds its table, its index search, its rate limiter
and its transition routine as Lean functions and proves properties of them.

Conventions of the embedding:

* `unsigned int` and `unsigned long` are both 32 bits wide on this ARM target; they are
  natural numbers, reduced modulo `WORD` wherever the C arithmetic can wrap.  Conversions
  between the two types are the identity and are not written.
* The clock and regulator primitives (`clk_get_rate`, `clk_set_rate`,
  `regulator_get_voltage`, `regulator_set_voltage`) are external; they are the fields
  of `HwOps`, acting on an abstract hardware state.
* `HZ` and `msecs_to_jiffies` come from kernel headers; they are the fields of
  `KernelConfig`.
* Every externally visible action of `sprd_cpufreq_target` is recorded, in program
  order, in a list of `Event`s.  Logging (`pr_debug`, `pr_info`, `pr_err`) is omitted.
-/

namespace Sc8810

/-! ## Constants -/

/-- Number of values of a 32-bit machine word. -/
def WORD : Nat := 4294967296

/-- Upper voltage constraint, `#define ARMVOLT_MAX (1400 * 1000)`. -/
def ARMVOLT_MAX : Nat := 1400 * 1000

/-- Lower voltage constraint, `#define ARMVOLT_MIN (650 * 1000)`. -/
def ARMVOLT_MIN : Nat := 650 * 1000

/-- Number of slots of both tables, `#define FREQ_TABLE_SIZE (11)`. -/
def FREQ_TABLE_SIZE : Nat := 11

/-- Minimum spacing of transitions in milliseconds, `#define WAIT_TRANS_TIME (100)`. -/
def WAIT_TRANS_TIME : Nat := 100

/-- The kernel's end-of-table marker `CPUFREQ_TABLE_END`, that is `~1` as `unsigned int`. -/
def CPUFREQ_TABLE_END : Nat := 4294967294

/-- The errno value `EINVAL`. -/
def EINVAL : Int := 22

/-- The notification phase `CPUFREQ_PRECHANGE`. -/
def CPUFREQ_PRECHANGE : Nat := 0

/-- The notification phase `CPUFREQ_POSTCHANGE`. -/
def CPUFREQ_POSTCHANGE : Nat := 1

/-! ### `enum clocking_levels` -/

def OC5 : Nat := 0
def OC4 : Nat := 1
def OC3 : Nat := 2
def OC2 : Nat := 3
def OC1 : Nat := 4
def NOC : Nat := 5
def UC0 : Nat := NOC
def OC0 : Nat := NOC
def UC1 : Nat := 6
def UC2 : Nat := 7
def UC3 : Nat := 8
def UC4 : Nat := 9
def MAX_OC : Nat := OC5
def MAX_UC : Nat := UC4
def EC : Nat := 10

/-! ## Kernel environment -/

/-- Kernel configuration the driver is compiled against: the tick rate `HZ` and the
conversion `msecs_to_jiffies`, both declared in kernel headers outside the driver. -/
structure KernelConfig where
  HZ : Nat
  msecs_to_jiffies : Nat → Nat

/-- Boot window in jiffies, `#define WAIT_BOOT_TIME (60 * HZ)`. -/
def WAIT_BOOT_TIME (K : KernelConfig) : Nat := 60 * K.HZ

/-- The kernel macro `time_before(a, b)`, that is `(long)(a) - (long)(b) < 0` on 32-bit
words: the wrapped difference `a - b` has its sign bit set. -/
def time_before (a b : Nat) : Bool :=
  decide (2147483648 ≤ (a % WORD + (WORD - b % WORD)) % WORD)

/-- The clock and regulator primitives of the platform, over a hardware state `σ`.
The status codes returned by the two setters are dropped, as the driver drops them. -/
structure HwOps (σ : Type) where
  clk_get_rate : σ → Nat
  clk_set_rate : σ → Nat → σ
  regulator_get_voltage : σ → Nat
  regulator_set_voltage : σ → Nat → Nat → σ

/-! ## Data model -/

/-- One row of the frequency table, `struct cpufreq_frequency_table`. -/
structure cpufreq_frequency_table where
  index : Nat
  frequency : Nat
  deriving DecidableEq, Repr

/-- The kernel's `struct cpufreq_freqs`. -/
structure cpufreq_freqs where
  cpu : Nat
  old : Nat
  new : Nat
  flags : Nat
  deriving DecidableEq, Repr

/-- The static tables, `struct cpufreq_table_data`. -/
structure cpufreq_table_data where
  freq_tbl : List cpufreq_frequency_table
  vdduv_tbl : List Nat
  deriving DecidableEq, Repr

/-- The tables reachable through `sprd_cpufreq_conf` (`struct cpufreq_conf`).  The `clk`
and `regulator` handles are represented by the hardware state of `Driver`. -/
structure cpufreq_conf where
  freq_tbl : List cpufreq_frequency_table
  vdduv_tbl : List Nat
  deriving DecidableEq, Repr

/-- The initial value of `sc8810_cpufreq_table_data`. -/
def sc8810_cpufreq_table_data : cpufreq_table_data where
  freq_tbl :=
    [ ⟨OC5, 1500000⟩, ⟨OC4, 1400000⟩, ⟨OC3, 1300000⟩, ⟨OC2, 1200000⟩, ⟨OC1, 1100000⟩,
      ⟨NOC, 1000000⟩, ⟨UC1, 900000⟩, ⟨UC2, 800000⟩, ⟨UC3, 700000⟩, ⟨UC4, 600000⟩,
      ⟨EC, CPUFREQ_TABLE_END⟩ ]
  vdduv_tbl :=
    [ 1100000, 1050000, 1000000, 950000, 900000, 850000, 800000, 750000, 700000, 650000,
      1100000 ]

/-- All global variables of the driver, together with the hardware state. -/
structure Driver (σ : Type) where
  global_freqs : cpufreq_freqs
  boot_time : Nat
  trans_time : Nat
  freq_min_limit : Nat
  freq_max_limit : Nat
  conf : cpufreq_conf
  hw : σ

/-- The expression `sprd_cpufreq_conf->freq_tbl[i].frequency`. -/
def freq_at (conf : cpufreq_conf) (i : Nat) : Nat :=
  (conf.freq_tbl.getD i ⟨0, 0⟩).frequency

/-- The expression `sprd_cpufreq_conf->vdduv_tbl[i]`. -/
def vdduv_at (conf : cpufreq_conf) (i : Nat) : Nat :=
  conf.vdduv_tbl.getD i 0

/-! ## Trace of observable actions -/

/-- Actions of the driver in program order. -/
inductive Event where
  | read_boot_time
  | read_trans_time
  | read_freqs_old
  | write_freqs_new (v : Nat)
  | write_freqs_old (v : Nat)
  | write_trans_time (v : Nat)
  | mutex_lock
  | mutex_unlock
  | hw_local_irq_save
  | hw_local_irq_restore
  | notify_transition (phase old new : Nat)
  | raw_getfreq
  | raw_getvolt
  | raw_setvolt (vdd_uv : Nat)
  | raw_setfreq (freq_khz : Nat)
  deriving DecidableEq, Repr

/-- Writes to the clock or to the voltage rail. -/
def Event.is_hw_write : Event → Bool
  | .raw_setvolt _ => true
  | .raw_setfreq _ => true
  | _ => false

/-- Reads and writes of the clock or of the voltage rail. -/
def Event.is_hw_access : Event → Bool
  | .raw_getfreq => true
  | .raw_getvolt => true
  | .raw_setvolt _ => true
  | .raw_setfreq _ => true
  | _ => false

/-- Notifications sent to the cpufreq core. -/
def Event.is_notify : Event → Bool
  | .notify_transition _ _ _ => true
  | _ => false

/-- The hardware writes of a trace, in order. -/
def hw_writes (t : List Event) : List Event := t.filter Event.is_hw_write

/-- The hardware reads and writes of a trace, in order. -/
def hw_accesses (t : List Event) : List Event := t.filter Event.is_hw_access

/-- The notifications of a trace, in order. -/
def notifications (t : List Event) : List Event := t.filter Event.is_notify

/-! ## Raw hardware access -/

variable {σ : Type}

/-- `sprd_raw_getfreq`: the clock rate in kHz. -/
def sprd_raw_getfreq (H : HwOps σ) (hw : σ) : Nat :=
  H.clk_get_rate hw / 1000

/-- `sprd_raw_getvolt`: the rail voltage in microvolts. -/
def sprd_raw_getvolt (H : HwOps σ) (hw : σ) : Nat :=
  H.regulator_get_voltage hw

/-- `sprd_raw_setfreq`: the product `freq_khz*1000` is computed in `unsigned int`. -/
def sprd_raw_setfreq (H : HwOps σ) (hw : σ) (freq_khz : Nat) : σ :=
  H.clk_set_rate hw ((freq_khz * 1000) % WORD)

/-- `sprd_raw_setvolt`: minimum and maximum are both the requested voltage. -/
def sprd_raw_setvolt (H : HwOps σ) (hw : σ) (vdd_uv : Nat) : σ :=
  H.regulator_set_voltage hw vdd_uv vdd_uv

/-- Effect of one event on the hardware: the two setters act, everything else leaves
the hardware alone. -/
def hw_step (H : HwOps σ) (hw : σ) : Event → σ
  | .raw_setvolt v => sprd_raw_setvolt H hw v
  | .raw_setfreq f => sprd_raw_setfreq H hw f
  | _ => hw

/-- The hardware states reached after each event of a trace, in order. -/
def hw_history (H : HwOps σ) : σ → List Event → List σ
  | _, [] => []
  | hw, e :: es => hw_step H hw e :: hw_history H (hw_step H hw e) es

/-! ## Index search -/

/-- The `while (i < FREQ_TABLE_SIZE)` loop of `sprd_find_freqtbl_index`.  The first
argument bounds the number of iterations; `FREQ_TABLE_SIZE` of them are enough
(`sprd_find_freqtbl_index_loop_fuel`). -/
def sprd_find_freqtbl_index_loop (conf : cpufreq_conf) (freq : Nat) : Nat → Nat → Nat → Nat
  | 0, _, index => index
  | n + 1, i, index =>
    if i < FREQ_TABLE_SIZE then
      sprd_find_freqtbl_index_loop conf freq n (i + 1)
        (if freq_at conf i / 100000 = freq / 100000 then i else index)
    else index

/-- `sprd_find_freqtbl_index`: the value left in `*index`. -/
def sprd_find_freqtbl_index (conf : cpufreq_conf) (freq : Nat) : Nat :=
  sprd_find_freqtbl_index_loop conf freq FREQ_TABLE_SIZE 0 NOC

/-- Lines 235-239 of `sprd_cpufreq_target`: the index that is applied, given the value
`index` left by the framework's `cpufreq_frequency_table_target`. -/
def resolved_index (conf : cpufreq_conf) (target_freq index : Nat) : Nat :=
  if target_freq ≠ freq_at conf index then sprd_find_freqtbl_index conf target_freq
  else index

/-- Lines 226 and 235-239 of `sprd_cpufreq_target`: the value of `new_freq` after the
index check. -/
def resolved_freq (conf : cpufreq_conf) (target_freq index : Nat) : Nat :=
  if target_freq ≠ freq_at conf index then
    freq_at conf (sprd_find_freqtbl_index conf target_freq)
  else target_freq

/-! ## Table setup -/

/-- The `for (i = 1; i < FREQ_TABLE_SIZE; i++)` loop of `sprd_gen_freq_table` with its
`break` at the first terminator; the value is `i` on leaving the loop.  The first
argument bounds the number of iterations. -/
def sprd_gen_freq_table_loop (conf : cpufreq_conf) : Nat → Nat → Nat
  | 0, i => i
  | n + 1, i =>
    if i < FREQ_TABLE_SIZE then
      if freq_at conf i = CPUFREQ_TABLE_END then i
      else sprd_gen_freq_table_loop conf n (i + 1)
    else i

/-- `sprd_gen_freq_table` run on the table data `data`: it installs the two tables and
derives both limits. -/
def sprd_gen_freq_table_from (data : cpufreq_table_data) (s : Driver σ) : Driver σ :=
  let conf : cpufreq_conf := ⟨data.freq_tbl, data.vdduv_tbl⟩
  let i := sprd_gen_freq_table_loop conf FREQ_TABLE_SIZE 1
  { s with
    conf := conf
    freq_max_limit := freq_at conf 0
    freq_min_limit := freq_at conf (i - 1) }

/-- `sprd_gen_freq_table`, which reads `sc8810_cpufreq_table_data`. -/
def sprd_gen_freq_table (s : Driver σ) : Driver σ :=
  sprd_gen_freq_table_from sc8810_cpufreq_table_data s

/-! ## The transition routine -/

/-- The three values of `jiffies` that one call of `sprd_cpufreq_target` reads: in the
boot check, in the interval check, and when it schedules the next allowed time. -/
structure JiffiesReads where
  at_boot_check : Nat
  at_trans_check : Nat
  at_update : Nat
  deriving DecidableEq, Repr

/-- Result of one call: the returned status, the globals and hardware afterwards, and
the actions performed. -/
structure Outcome (σ : Type) where
  ret : Int
  state : Driver σ
  trace : List Event

/-- Lines 256-262 of `sprd_cpufreq_target`: the ordered writes, given the frequency
`cur_freq` read at line 255.  The value is the hardware afterwards and the writes made. -/
def apply_transition (H : HwOps σ) (hw : σ) (cur_freq new_freq new_volt : Nat) :
    σ × List Event :=
  if new_freq ≠ cur_freq then
    let a : σ × List Event :=
      if new_freq > cur_freq then
        (sprd_raw_setvolt H hw new_volt, [Event.raw_setvolt new_volt])
      else (hw, [])
    let b : σ × List Event :=
      (sprd_raw_setfreq H a.1 new_freq, a.2 ++ [Event.raw_setfreq new_freq])
    if new_freq < cur_freq then
      (sprd_raw_setvolt H b.1 new_volt, b.2 ++ [Event.raw_setvolt new_volt])
    else b
  else (hw, [])

/-- `sprd_cpufreq_target`.  `index` is the value left in the local `index` by the
framework search `cpufreq_frequency_table_target` at line 220 (`NOC` when that search
fails); `policy` and `relation` are used for nothing else. -/
def sprd_cpufreq_target (K : KernelConfig) (H : HwOps σ) (s : Driver σ) (j : JiffiesReads)
    (target_freq index : Nat) : Outcome σ :=
  if time_before j.at_boot_check s.boot_time then
    ⟨0, s, [.read_boot_time]⟩
  else if time_before j.at_trans_check s.trans_time then
    ⟨0, s, [.read_boot_time, .read_trans_time]⟩
  else if target_freq < s.freq_min_limit ∨ target_freq > s.freq_max_limit then
    ⟨-EINVAL, s, [.read_boot_time, .read_trans_time]⟩
  else if target_freq = s.global_freqs.old then
    ⟨0, s, [.read_boot_time, .read_trans_time, .mutex_lock, .read_freqs_old,
            .mutex_unlock]⟩
  else
    let index1 := resolved_index s.conf target_freq index
    let new_freq := resolved_freq s.conf target_freq index
    let freqs : cpufreq_freqs := { s.global_freqs with new := new_freq }
    let new_volt := vdduv_at s.conf index1
    -- hw_local_irq_save ... hw_local_irq_restore
    let cur_freq := sprd_raw_getfreq H s.hw
    let w := apply_transition H s.hw cur_freq new_freq new_volt
    -- lines 267-275 only overwrite the locals new_freq and new_volt, which are
    -- then no longer read, and log
    let trans_time := (j.at_update + K.msecs_to_jiffies WAIT_TRANS_TIME) % WORD
    ⟨0,
     { s with
       global_freqs := { freqs with old := freqs.new }
       trans_time := trans_time
       hw := w.1 },
     [.read_boot_time, .read_trans_time, .mutex_lock, .read_freqs_old,
      .write_freqs_new freqs.new,
      .notify_transition CPUFREQ_PRECHANGE freqs.old freqs.new,
      .hw_local_irq_save, .raw_getfreq] ++ w.2 ++
     [.raw_getfreq, .raw_getvolt, .hw_local_irq_restore,
      .notify_transition CPUFREQ_POSTCHANGE freqs.old freqs.new,
      .write_freqs_old freqs.new, .write_trans_time trans_time, .mutex_unlock]⟩

/-- `sprd_cpufreq_getspeed`; the error `-EINVAL` is returned as `unsigned int`. -/
def sprd_cpufreq_getspeed (H : HwOps σ) (s : Driver σ) (cpu : Nat) : Nat :=
  if cpu ≠ 0 then WORD - 22 else sprd_raw_getfreq H s.hw

/-! ## Module start -/

/-- `sprd_cpufreq_modinit` as far as it touches the globals.  `jiffies` is the tick
count read at line 451; `clk_err` and `regulator_err` say whether `clk_get_sys` and
`regulator_get` failed, in which case the routine returns early. -/
def sprd_cpufreq_modinit (K : KernelConfig) (H : HwOps σ) (s : Driver σ) (jiffies : Nat)
    (clk_err regulator_err : Bool) : Driver σ :=
  let s1 := sprd_gen_freq_table s
  if clk_err then s1
  else if regulator_err then s1
  else
    { s1 with
      boot_time := WAIT_BOOT_TIME K % WORD
      trans_time :=
        (jiffies % WORD + (WORD - K.msecs_to_jiffies (WAIT_BOOT_TIME K * 10 % WORD) % WORD))
          % WORD
      global_freqs := { s1.global_freqs with old := sprd_raw_getfreq H s1.hw } }

/-- The globals as the C initialisers leave them, on hardware state `hw`. -/
def initial_driver (hw : σ) : Driver σ where
  global_freqs := ⟨0, 0, 0, 0⟩
  boot_time := 0
  trans_time := 0
  freq_min_limit := 600000
  freq_max_limit := 1000000
  conf := ⟨[], []⟩
  hw := hw

/-! ## Concrete environments -/

/-- Clock rate in Hz and rail voltage in microvolts. -/
structure ClockRail where
  rate : Nat
  uv : Nat
  deriving DecidableEq, Repr

/-- Hardware on which every set takes effect. -/
def ideal_hw : HwOps ClockRail where
  clk_get_rate := fun st => st.rate
  clk_set_rate := fun st r => { st with rate := r }
  regulator_get_voltage := fun st => st.uv
  regulator_set_voltage := fun st lo _ => { st with uv := lo }

/-- Hardware whose clock refuses every rate change (`clk_set_rate` fails and leaves the
rate as it was), while the regulator obeys. -/
def stuck_clock_hw : HwOps ClockRail where
  clk_get_rate := fun st => st.rate
  clk_set_rate := fun st _ => st
  regulator_get_voltage := fun st => st.uv
  regulator_set_voltage := fun st lo _ => { st with uv := lo }

/-- A kernel with `HZ = 100`, where `msecs_to_jiffies` rounds up to whole ticks of 10 ms. -/
def kernel_hz100 : KernelConfig where
  HZ := 100
  msecs_to_jiffies := fun m => (m + 9) / 10

/-- The driver after `sprd_gen_freq_table`, idle at `old_khz`, with both deadlines in
the past of tick `0`. -/
def reference_driver (old_khz : Nat) (hw : σ) : Driver σ where
  global_freqs := ⟨0, old_khz, 0, 0⟩
  boot_time := 0
  trans_time := 0
  freq_min_limit := 600000
  freq_max_limit := 1500000
  conf := ⟨sc8810_cpufreq_table_data.freq_tbl, sc8810_cpufreq_table_data.vdduv_tbl⟩
  hw := hw

/-- The reference driver idle at the slowest level, on ideal hardware. -/
def idle_at_600 : Driver ClockRail :=
  reference_driver 600000 ⟨600000000, 650000⟩

/-- The reference driver idle at the nominal level, on ideal hardware. -/
def idle_at_1000 : Driver ClockRail :=
  reference_driver 1000000 ⟨1000000000, 850000⟩

/-- The reference driver idle at the nominal level, for use with `stuck_clock_hw`. -/
def stuck_at_1000 : Driver ClockRail :=
  reference_driver 1000000 ⟨1000000000, 850000⟩

/-- The driver right after a module start at tick 100000 on a kernel with `HZ = 100`,
the hardware running at the nominal level. -/
def started_late : Driver ClockRail :=
  sprd_cpufreq_modinit kernel_hz100 ideal_hw (initial_driver ⟨1000000000, 850000⟩)
    100000 false false

/-- The driver right after a start at tick `2^32 - 300 * HZ + 50`, half a second after
the kernel's initial tick count, on a kernel with `HZ = 100`. -/
def started_at_boot : Driver ClockRail :=
  sprd_cpufreq_modinit kernel_hz100 ideal_hw (initial_driver ⟨1000000000, 850000⟩)
    4294937346 false false

/-! ## Predicates used by the statements -/

/-- The request passes both checks of the rate limiter. -/
@[reducible] def admitted (s : Driver σ) (j : JiffiesReads) : Prop :=
  time_before j.at_boot_check s.boot_time = false ∧
  time_before j.at_trans_check s.trans_time = false

/-- The target lies within the two limits. -/
@[reducible] def in_limits (s : Driver σ) (target_freq : Nat) : Prop :=
  s.freq_min_limit ≤ target_freq ∧ target_freq ≤ s.freq_max_limit

/-- The hardware runs at the frequency of some usable level `k` (0..9) with at least
the voltage the table gives for `k`. -/
@[reducible] def supported (conf : cpufreq_conf) (H : HwOps σ) (hw : σ) : Prop :=
  ∃ k, k < 10 ∧ sprd_raw_getfreq H hw = freq_at conf k ∧
    vdduv_at conf k ≤ sprd_raw_getvolt H hw

/-- The voltage table does not increase along the usable indices 0..9. -/
@[reducible] def vdduv_nonincreasing (conf : cpufreq_conf) : Prop :=
  ∀ b, b < 10 → ∀ a, a ≤ b → vdduv_at conf b ≤ vdduv_at conf a

/-! ## The voltage editor -/

/-- One call `sscanf(buf, "%d%n", &val, &consumed)`: `none` when no integer was read
(`ret <= 0`), otherwise the integer and the number of characters read. -/
abbrev Scanner := List Char → Option (Int × Nat)

/-- White space as `isspace` sees it. -/
def isspace (c : Char) : Bool :=
  c = ' ' || c = '\t' || c = '\n' || c = '\r' || c.toNat = 11 || c.toNat = 12

/-- Decimal digits as `isdigit` sees them. -/
def isdigit (c : Char) : Bool :=
  decide (48 ≤ c.toNat ∧ c.toNat ≤ 57)

/-- Number of leading white space characters. -/
def count_spaces : List Char → Nat
  | [] => 0
  | c :: cs => if isspace c then count_spaces cs + 1 else 0

/-- Reads a run of decimal digits: the value accumulated in a 32-bit word and the
number of digits. -/
def scan_digits : List Char → Nat → Nat → Nat × Nat
  | [], acc, n => (acc, n)
  | c :: cs, acc, n =>
    if isdigit c then scan_digits cs ((acc * 10 + (c.toNat - 48)) % WORD) (n + 1)
    else (acc, n)

/-- A 32-bit word read as a signed `int`. -/
def to_int32 (w : Nat) : Int :=
  if w % WORD < 2147483648 then (w % WORD : Nat) else (w % WORD : Nat) - (WORD : Int)

/-- Modelled from the spec: the library call `sscanf` with the format `%d%n`, which the
driver uses and does not define.  The editor "tokenizes the input as a sequence of
decimal integers (stop at first non-numeric token or end of input)", white space being
immaterial: leading white space is skipped, an optional minus sign and a non-empty run
of decimal digits are read as an `int`, and the count of characters read so far is
reported; with no digits there, nothing is read. -/
def sscanf_d_n : Scanner := fun buf =>
  let k := count_spaces buf
  match buf.drop k with
  | '-' :: rest =>
    let r := scan_digits rest 0 0
    if r.2 = 0 then none else some (to_int32 (WORD - r.1), k + 1 + r.2)
  | rest =>
    let r := scan_digits rest 0 0
    if r.2 = 0 then none else some (to_int32 r.1, k + r.2)

/-- One line of `sprd_vdd_get`, the format `"%umhz: %lu mV\n"`. -/
def sprd_vdd_get_line (conf : cpufreq_conf) (i : Nat) : List Char :=
  Nat.toDigits 10 (freq_at conf i / 1000) ++ ['m', 'h', 'z', ':', ' '] ++
    Nat.toDigits 10 (vdduv_at conf i / 1000) ++ [' ', 'm', 'V', '\n']

/-- The `for (i = 0; i <= MAX_UC; i++)` loop of `sprd_vdd_get`; the first argument is
the number of iterations left. -/
def sprd_vdd_get_loop (conf : cpufreq_conf) : Nat → Nat → List Char
  | 0, _ => []
  | n + 1, i => sprd_vdd_get_line conf i ++ sprd_vdd_get_loop conf n (i + 1)

/-- `sprd_vdd_get`: the text written to `buf`. -/
def sprd_vdd_get (conf : cpufreq_conf) : List Char :=
  sprd_vdd_get_loop conf (MAX_UC + 1) 0

/-- The `while (j < MAX_UC + 1)` loop of `sprd_vdd_set`: the values `u[0..j-1]` in
order.  The first argument is `MAX_UC + 1 - j`, the number of values still accepted. -/
def sprd_vdd_set_scan (scan : Scanner) : Nat → List Char → List Int
  | 0, _ => []
  | n + 1, buf =>
    match scan buf with
    | some (val, consumed) => val :: sprd_vdd_set_scan scan n (buf.drop consumed)
    | none => []

/-- The value of `u[i]` after the clamp of lines 381-383. -/
def vdd_clamp (x : Int) : Int :=
  if x > (ARMVOLT_MAX / 1000 : Nat) then (ARMVOLT_MAX / 1000 : Nat) else x

/-- The word stored by `vdduv_tbl[i] = u[i] * 1000`: the `int` product converted to
`unsigned long`. -/
def vdd_word (x : Int) : Nat :=
  Int.toNat ((x * 1000) % (WORD : Int))

/-- The body of the `for` loop of `sprd_vdd_set` (lines 381-385) for slot `i` and the
value `x = u[i]`. -/
def sprd_vdd_set_store (tbl : List Nat) (i : Nat) (x : Int) : List Nat :=
  if Int.tmod (vdd_clamp x) 25 = 0 then tbl.set i (vdd_word (vdd_clamp x)) else tbl

/-- The content of a slot that held `old` once the loop body has run on it with the
value `x`: the clamped value in microvolts if it is a multiple of 25, else `old`. -/
def vdd_slot_after (old : Nat) (x : Int) : Nat :=
  if Int.tmod (vdd_clamp x) 25 = 0 then vdd_word (vdd_clamp x) else old

/-- The `for (i = 0; i < j; i++)` loop of `sprd_vdd_set` over the values `u[i..j-1]`. -/
def sprd_vdd_set_apply : List Int → Nat → List Nat → List Nat
  | [], _, tbl => tbl
  | x :: xs, i, tbl => sprd_vdd_set_apply xs (i + 1) (sprd_vdd_set_store tbl i x)

/-- `sprd_vdd_set`, with the library scanner as a parameter. -/
def sprd_vdd_set (scan : Scanner) (conf : cpufreq_conf) (buf : List Char) : cpufreq_conf :=
  { conf with
    vdduv_tbl :=
      sprd_vdd_set_apply (sprd_vdd_set_scan scan (MAX_UC + 1) buf) 0 conf.vdduv_tbl }

/-- The tables as `sprd_gen_freq_table` installs them. -/
def reference_conf : cpufreq_conf :=
  ⟨sc8810_cpufreq_table_data.freq_tbl, sc8810_cpufreq_table_data.vdduv_tbl⟩

/-- Every entry of the voltage table lies within `[ARMVOLT_MIN, ARMVOLT_MAX]`. -/
@[reducible] def vdduv_in_range (conf : cpufreq_conf) : Prop :=
  ∀ k, k < FREQ_TABLE_SIZE → ARMVOLT_MIN ≤ vdduv_at conf k ∧ vdduv_at conf k ≤ ARMVOLT_MAX

/-! ## Lock discipline -/

/-- Which of the two locks are held: the mutex `freq_lock` and the exclusive hardware
section. -/
structure Locks where
  mutex : Bool
  section_held : Bool
  deriving DecidableEq, Repr

/-- One event against the discipline; `none` once it has been broken.  The mutex is
taken with nothing held and released with only itself held; the hardware section is
entered with only the mutex held and left while held; hardware is touched with both
held; notifications go out with only the mutex held. -/
def lock_step (l : Option Locks) (e : Event) : Option Locks :=
  match l with
  | none => none
  | some l =>
    match e with
    | .mutex_lock => if !l.mutex && !l.section_held then some ⟨true, false⟩ else none
    | .mutex_unlock => if l.mutex && !l.section_held then some ⟨false, false⟩ else none
    | .hw_local_irq_save =>
      if l.mutex && !l.section_held then some ⟨true, true⟩ else none
    | .hw_local_irq_restore =>
      if l.mutex && l.section_held then some ⟨true, false⟩ else none
    | .raw_getfreq => if l.mutex && l.section_held then some l else none
    | .raw_getvolt => if l.mutex && l.section_held then some l else none
    | .raw_setvolt _ => if l.mutex && l.section_held then some l else none
    | .raw_setfreq _ => if l.mutex && l.section_held then some l else none
    | .notify_transition _ _ _ => if l.mutex && !l.section_held then some l else none
    | _ => some l

/-- The trace keeps the discipline of `lock_step` throughout and ends with no lock
held. -/
def lock_discipline (t : List Event) : Bool :=
  decide (t.foldl lock_step (some ⟨false, false⟩) = some ⟨false, false⟩)

/-- Reads and writes of the rate limiter state and of `global_freqs`. -/
def Event.is_state_access : Event → Bool
  | .read_boot_time => true
  | .read_trans_time => true
  | .read_freqs_old => true
  | .write_freqs_new _ => true
  | .write_freqs_old _ => true
  | .write_trans_time _ => true
  | _ => false

/-- The events that happen while `freq_lock` is not held, in order; the first argument
says whether the mutex is held on entry. -/
def outside_mutex_from : Bool → List Event → List Event
  | _, [] => []
  | _, .mutex_lock :: es => outside_mutex_from true es
  | _, .mutex_unlock :: es => outside_mutex_from false es
  | held, e :: es =>
    if held then outside_mutex_from held es else e :: outside_mutex_from held es

/-- The events of a call that happen while `freq_lock` is not held. -/
def outside_mutex (t : List Event) : List Event := outside_mutex_from false t

/-- The number of times an event satisfying `p` occurs in a trace. -/
def count_events (p : Event → Bool) (t : List Event) : Nat := (t.filter p).length

/-! ## The four paths that leave everything alone, and the executed path -/

theorem target_boot_blocked (K : KernelConfig) (H : HwOps σ) (s : Driver σ)
    (j : JiffiesReads) (target_freq index : Nat)
    (h : time_before j.at_boot_check s.boot_time = true) :
    sprd_cpufreq_target K H s j target_freq index = ⟨0, s, [.read_boot_time]⟩ := by
  simp [sprd_cpufreq_target, h]

theorem target_trans_blocked (K : KernelConfig) (H : HwOps σ) (s : Driver σ)
    (j : JiffiesReads) (target_freq index : Nat)
    (hb : time_before j.at_boot_check s.boot_time = false)
    (h : time_before j.at_trans_check s.trans_time = true) :
    sprd_cpufreq_target K H s j target_freq index =
      ⟨0, s, [.read_boot_time, .read_trans_time]⟩ := by
  simp [sprd_cpufreq_target, hb, h]

theorem target_out_of_limits (K : KernelConfig) (H : HwOps σ) (s : Driver σ)
    (j : JiffiesReads) (target_freq index : Nat) (hadm : admitted s j)
    (h : target_freq < s.freq_min_limit ∨ target_freq > s.freq_max_limit) :
    sprd_cpufreq_target K H s j target_freq index =
      ⟨-EINVAL, s, [.read_boot_time, .read_trans_time]⟩ := by
  simp [sprd_cpufreq_target, hadm.1, hadm.2, h]

theorem target_debounced (K : KernelConfig) (H : HwOps σ) (s : Driver σ)
    (j : JiffiesReads) (target_freq index : Nat) (hadm : admitted s j)
    (hlim : in_limits s target_freq) (h : target_freq = s.global_freqs.old) :
    sprd_cpufreq_target K H s j target_freq index =
      ⟨0, s, [.read_boot_time, .read_trans_time, .mutex_lock, .read_freqs_old,
              .mutex_unlock]⟩ := by
  have h1 : ¬ (target_freq < s.freq_min_limit ∨ target_freq > s.freq_max_limit) := by
    have := hlim.1
    have := hlim.2
    omega
  simp only [sprd_cpufreq_target, hadm.1, hadm.2, if_neg h1, if_pos h]
  simp

theorem target_executed (K : KernelConfig) (H : HwOps σ) (s : Driver σ)
    (j : JiffiesReads) (target_freq index : Nat) (hadm : admitted s j)
    (hlim : in_limits s target_freq) (hne : target_freq ≠ s.global_freqs.old) :
    sprd_cpufreq_target K H s j target_freq index =
      ⟨0,
       { s with
         global_freqs :=
           { s.global_freqs with
             new := resolved_freq s.conf target_freq index
             old := resolved_freq s.conf target_freq index }
         trans_time := (j.at_update + K.msecs_to_jiffies WAIT_TRANS_TIME) % WORD
         hw := (apply_transition H s.hw (sprd_raw_getfreq H s.hw)
                 (resolved_freq s.conf target_freq index)
                 (vdduv_at s.conf (resolved_index s.conf target_freq index))).1 },
       [.read_boot_time, .read_trans_time, .mutex_lock, .read_freqs_old,
        .write_freqs_new (resolved_freq s.conf target_freq index),
        .notify_transition CPUFREQ_PRECHANGE s.global_freqs.old
          (resolved_freq s.conf target_freq index),
        .hw_local_irq_save, .raw_getfreq] ++
       (apply_transition H s.hw (sprd_raw_getfreq H s.hw)
         (resolved_freq s.conf target_freq index)
         (vdduv_at s.conf (resolved_index s.conf target_freq index))).2 ++
       [.raw_getfreq, .raw_getvolt, .hw_local_irq_restore,
        .notify_transition CPUFREQ_POSTCHANGE s.global_freqs.old
          (resolved_freq s.conf target_freq index),
        .write_freqs_old (resolved_freq s.conf target_freq index),
        .write_trans_time ((j.at_update + K.msecs_to_jiffies WAIT_TRANS_TIME) % WORD),
        .mutex_unlock]⟩ := by
  have h1 : ¬ (target_freq < s.freq_min_limit ∨ target_freq > s.freq_max_limit) := by
    have := hlim.1
    have := hlim.2
    omega
  simp only [sprd_cpufreq_target, hadm.1, hadm.2, if_neg h1, if_neg hne]
  simp

/-- The writes of lines 256-262, by direction. -/
theorem apply_transition_writes (H : HwOps σ) (hw : σ) (cur new_freq new_volt : Nat) :
    (apply_transition H hw cur new_freq new_volt).2 =
      if cur < new_freq then [.raw_setvolt new_volt, .raw_setfreq new_freq]
      else if new_freq < cur then [.raw_setfreq new_freq, .raw_setvolt new_volt]
      else [] := by
  unfold apply_transition
  by_cases h1 : cur < new_freq
  · have h2 : new_freq ≠ cur := by omega
    have h3 : ¬ new_freq < cur := by omega
    simp [h1, h2, h3]
  · by_cases h2 : new_freq < cur
    · have h3 : new_freq ≠ cur := by omega
      simp [h1, h2, h3]
    · have h3 : new_freq = cur := by omega
      simp [h3]

/-- Every event that `apply_transition` emits is a hardware write. -/
theorem apply_transition_all_writes (H : HwOps σ) (hw : σ) (cur new_freq new_volt : Nat) :
    hw_writes (apply_transition H hw cur new_freq new_volt).2 =
      (apply_transition H hw cur new_freq new_volt).2 := by
  rw [apply_transition_writes]
  split_ifs <;> simp [hw_writes, Event.is_hw_write]

/-- The hardware writes of an executed transition are those of lines 256-262. -/
theorem target_executed_writes (K : KernelConfig) (H : HwOps σ) (s : Driver σ)
    (j : JiffiesReads) (target_freq index : Nat) (hadm : admitted s j)
    (hlim : in_limits s target_freq) (hne : target_freq ≠ s.global_freqs.old) :
    hw_writes (sprd_cpufreq_target K H s j target_freq index).trace =
      (apply_transition H s.hw (sprd_raw_getfreq H s.hw)
        (resolved_freq s.conf target_freq index)
        (vdduv_at s.conf (resolved_index s.conf target_freq index))).2 := by
  rw [target_executed K H s j target_freq index hadm hlim hne]
  have h := apply_transition_all_writes H s.hw (sprd_raw_getfreq H s.hw)
    (resolved_freq s.conf target_freq index)
    (vdduv_at s.conf (resolved_index s.conf target_freq index))
  simp only [hw_writes] at h ⊢
  simp [List.filter_append, Event.is_hw_write, h]

/-! ## Order of the hardware writes -/

/-- C1. In every executed transition (admitted, within limits, target different from the
recorded last frequency), with `cur` the frequency read from the hardware and
`new_freq`, `new_volt` the frequency and table voltage of the resolved index: going up
the writes are exactly voltage then frequency, going down exactly frequency then
voltage, and when `new_freq = cur` there is no write. -/
theorem target_write_order (K : KernelConfig) (H : HwOps σ) (s : Driver σ)
    (j : JiffiesReads) (target_freq index : Nat) (hadm : admitted s j)
    (hlim : in_limits s target_freq) (hne : target_freq ≠ s.global_freqs.old) :
    (sprd_raw_getfreq H s.hw < resolved_freq s.conf target_freq index →
      hw_writes (sprd_cpufreq_target K H s j target_freq index).trace =
        [.raw_setvolt (vdduv_at s.conf (resolved_index s.conf target_freq index)),
         .raw_setfreq (resolved_freq s.conf target_freq index)]) ∧
    (resolved_freq s.conf target_freq index < sprd_raw_getfreq H s.hw →
      hw_writes (sprd_cpufreq_target K H s j target_freq index).trace =
        [.raw_setfreq (resolved_freq s.conf target_freq index),
         .raw_setvolt (vdduv_at s.conf (resolved_index s.conf target_freq index))]) ∧
    (resolved_freq s.conf target_freq index = sprd_raw_getfreq H s.hw →
      hw_writes (sprd_cpufreq_target K H s j target_freq index).trace = []) := by
  rw [target_executed_writes K H s j target_freq index hadm hlim hne,
    apply_transition_writes]
  refine ⟨fun h => ?_, fun h => ?_, fun h => ?_⟩
  · simp [h]
  · have h1 : ¬ sprd_raw_getfreq H s.hw < resolved_freq s.conf target_freq index := by
      omega
    simp [h, h1]
  · simp [h]

/-- C1 at a concrete input: from 600 MHz up to 1.2 GHz the rail is raised first. -/
theorem target_write_order_witness :
    admitted idle_at_600 ⟨0, 0, 0⟩ ∧ in_limits idle_at_600 1200000 ∧
    1200000 ≠ idle_at_600.global_freqs.old ∧
    hw_writes (sprd_cpufreq_target kernel_hz100 ideal_hw idle_at_600 ⟨0, 0, 0⟩
      1200000 3).trace = [.raw_setvolt 950000, .raw_setfreq 1200000] :=
  ⟨by decide, by decide, by decide,
   (target_write_order kernel_hz100 ideal_hw idle_at_600 ⟨0, 0, 0⟩ 1200000 3
     (by decide) (by decide) (by decide)).1 (by decide)⟩

/-! ## Index search -/

/-- Once the loop counter has reached `FREQ_TABLE_SIZE`, the loop returns at once. -/
theorem sprd_find_freqtbl_index_loop_done (conf : cpufreq_conf) (freq n i index : Nat)
    (h : FREQ_TABLE_SIZE ≤ i) :
    sprd_find_freqtbl_index_loop conf freq n i index = index := by
  cases n with
  | zero => rfl
  | succ n =>
    have h1 : ¬ i < FREQ_TABLE_SIZE := by omega
    simp [sprd_find_freqtbl_index_loop, h1]

/-- The iteration bound is not felt: any bound that covers the remaining slots gives
the same result as a larger one. -/
theorem sprd_find_freqtbl_index_loop_fuel (conf : cpufreq_conf) (freq : Nat) :
    ∀ n i index, FREQ_TABLE_SIZE ≤ i + n →
      sprd_find_freqtbl_index_loop conf freq (n + 1) i index =
        sprd_find_freqtbl_index_loop conf freq n i index := by
  intro n
  induction n with
  | zero =>
    intro i index h
    have h1 : ¬ i < FREQ_TABLE_SIZE := by omega
    simp [sprd_find_freqtbl_index_loop, h1]
  | succ n ih =>
    intro i index h
    by_cases h1 : i < FREQ_TABLE_SIZE
    · have h2 := ih (i + 1)
        (if freq_at conf i / 100000 = freq / 100000 then i else index) (by omega)
      rw [sprd_find_freqtbl_index_loop, if_pos h1, h2]
      conv_rhs => rw [sprd_find_freqtbl_index_loop, if_pos h1]
    · rw [sprd_find_freqtbl_index_loop, if_neg h1]
      conv_rhs => rw [sprd_find_freqtbl_index_loop, if_neg h1]

/-- What the scan returns when started at slot `i` with `index` in hand: the largest
matching slot from `i` on, or `index` when no slot from `i` on matches. -/
theorem sprd_find_freqtbl_index_loop_spec (conf : cpufreq_conf) (freq : Nat) :
    ∀ n i index, i + n = FREQ_TABLE_SIZE →
      (∃ k, i ≤ k ∧ k < FREQ_TABLE_SIZE ∧
          freq_at conf k / 100000 = freq / 100000 ∧
          (∀ m, k < m → m < FREQ_TABLE_SIZE →
            freq_at conf m / 100000 ≠ freq / 100000) ∧
          sprd_find_freqtbl_index_loop conf freq n i index = k) ∨
      ((∀ m, i ≤ m → m < FREQ_TABLE_SIZE →
          freq_at conf m / 100000 ≠ freq / 100000) ∧
        sprd_find_freqtbl_index_loop conf freq n i index = index) := by
  intro n
  induction n with
  | zero =>
    intro i index h
    right
    refine ⟨fun m h1 h2 => ?_, rfl⟩
    omega
  | succ n ih =>
    intro i index h
    have hi : i < FREQ_TABLE_SIZE := by omega
    rw [sprd_find_freqtbl_index_loop, if_pos hi]
    rcases ih (i + 1) (if freq_at conf i / 100000 = freq / 100000 then i else index)
      (by omega) with ⟨k, hk1, hk2, hk3, hk4, hk5⟩ | ⟨hno, hres⟩
    · exact Or.inl ⟨k, by omega, hk2, hk3, hk4, hk5⟩
    · by_cases hm : freq_at conf i / 100000 = freq / 100000
      · left
        refine ⟨i, le_refl i, hi, hm, fun m h1 h2 => hno m (by omega) h2, ?_⟩
        rw [hres, if_pos hm]
      · right
        refine ⟨fun m h1 h2 => ?_, ?_⟩
        · rcases Nat.eq_or_lt_of_le h1 with h3 | h3
          · rw [← h3]
            exact hm
          · exact hno m (by omega) h2
        · rw [hres, if_neg hm]

/-- The frequency applied is the one the table holds at the applied index. -/
theorem resolved_freq_eq (conf : cpufreq_conf) (target_freq index : Nat) :
    resolved_freq conf target_freq index =
      freq_at conf (resolved_index conf target_freq index) := by
  unfold resolved_freq resolved_index
  by_cases h : target_freq = freq_at conf index
  · simp [h]
  · simp [h]

/-- C9. Index resolution, for every table, requested frequency `f` and in-bounds hinted
index `h`: if the table holds `f` at `h` the applied index is `h`; otherwise it is the
largest slot whose frequency lies in the same 100 MHz bucket as `f`, and `NOC` when no
slot does.  The applied frequency is the table frequency at the applied index, it is
what an executed transition stores in `global_freqs.new`, and every hardware write of an
executed transition carries the frequency or the voltage of that same index. -/
theorem index_resolution (K : KernelConfig) (H : HwOps σ) (s : Driver σ)
    (j : JiffiesReads) (f h : Nat) (_hh : h < FREQ_TABLE_SIZE) :
    (freq_at s.conf h = f → resolved_index s.conf f h = h) ∧
    (freq_at s.conf h ≠ f →
      (∃ i, i < FREQ_TABLE_SIZE ∧ freq_at s.conf i / 100000 = f / 100000 ∧
        (∀ m, i < m → m < FREQ_TABLE_SIZE →
          freq_at s.conf m / 100000 ≠ f / 100000) ∧
        resolved_index s.conf f h = i) ∨
      ((∀ m, m < FREQ_TABLE_SIZE → freq_at s.conf m / 100000 ≠ f / 100000) ∧
        resolved_index s.conf f h = NOC)) ∧
    resolved_freq s.conf f h = freq_at s.conf (resolved_index s.conf f h) ∧
    (admitted s j → in_limits s f → f ≠ s.global_freqs.old →
      (sprd_cpufreq_target K H s j f h).state.global_freqs.new =
        freq_at s.conf (resolved_index s.conf f h) ∧
      ∀ e, e ∈ hw_writes (sprd_cpufreq_target K H s j f h).trace →
        e = .raw_setfreq (freq_at s.conf (resolved_index s.conf f h)) ∨
        e = .raw_setvolt (vdduv_at s.conf (resolved_index s.conf f h))) := by
  refine ⟨fun heq => ?_, fun hne => ?_, resolved_freq_eq s.conf f h, ?_⟩
  · simp [resolved_index, heq]
  · have hne2 : f ≠ freq_at s.conf h := fun e => hne e.symm
    have hr : resolved_index s.conf f h = sprd_find_freqtbl_index s.conf f := by
      simp [resolved_index, hne2]
    rw [hr]
    rcases sprd_find_freqtbl_index_loop_spec s.conf f FREQ_TABLE_SIZE 0 NOC (by simp)
      with ⟨k, _, hk2, hk3, hk4, hk5⟩ | ⟨hno, hres⟩
    · exact Or.inl ⟨k, hk2, hk3, hk4, hk5⟩
    · exact Or.inr ⟨fun m hm => hno m (Nat.zero_le m) hm, hres⟩
  · intro hadm hlim hold
    constructor
    · rw [target_executed K H s j f h hadm hlim hold, resolved_freq_eq]
    · intro e he
      rw [target_executed_writes K H s j f h hadm hlim hold, apply_transition_writes,
        resolved_freq_eq] at he
      split_ifs at he <;> simp at he <;> rcases he with he | he <;> simp [he]

/-- C9 at a concrete input: 905 MHz with the wrong hint 3 resolves to slot 6. -/
theorem index_resolution_witness :
    3 < FREQ_TABLE_SIZE ∧ freq_at idle_at_1000.conf 3 ≠ 905000 ∧
    admitted idle_at_1000 ⟨0, 0, 0⟩ ∧ in_limits idle_at_1000 905000 ∧
    905000 ≠ idle_at_1000.global_freqs.old ∧
    resolved_freq idle_at_1000.conf 905000 3 =
      freq_at idle_at_1000.conf (resolved_index idle_at_1000.conf 905000 3) ∧
    (sprd_cpufreq_target kernel_hz100 ideal_hw idle_at_1000 ⟨0, 0, 0⟩
      905000 3).state.global_freqs.new =
      freq_at idle_at_1000.conf (resolved_index idle_at_1000.conf 905000 3) :=
  ⟨by decide, by decide, by decide, by decide, by decide,
   (index_resolution kernel_hz100 ideal_hw idle_at_1000 ⟨0, 0, 0⟩ 905000 3
     (by decide)).2.2.1,
   ((index_resolution kernel_hz100 ideal_hw idle_at_1000 ⟨0, 0, 0⟩ 905000 3
     (by decide)).2.2.2 (by decide) (by decide) (by decide)).1⟩

/-! ## The reference table -/

/-- The usable rows of the reference table, in closed form. -/
theorem reference_freq_at (conf : cpufreq_conf)
    (htbl : conf.freq_tbl = sc8810_cpufreq_table_data.freq_tbl) (k : Nat) (hk : k < 10) :
    freq_at conf k = 1500000 - 100000 * k := by
  interval_cases k <;> simp [freq_at, htbl, sc8810_cpufreq_table_data]

/-- The terminator row of the reference table. -/
theorem reference_freq_at_end (conf : cpufreq_conf)
    (htbl : conf.freq_tbl = sc8810_cpufreq_table_data.freq_tbl) :
    freq_at conf 10 = 4294967294 := by
  simp [freq_at, htbl, sc8810_cpufreq_table_data, CPUFREQ_TABLE_END]

/-- On the reference table a target below the terminator's bucket never resolves to
the terminator slot. -/
theorem reference_resolved_index_usable (conf : cpufreq_conf)
    (htbl : conf.freq_tbl = sc8810_cpufreq_table_data.freq_tbl)
    (target_freq index : Nat) (hidx : index < FREQ_TABLE_SIZE)
    (ht : target_freq < 4294900000) :
    resolved_index conf target_freq index < 10 := by
  have hend := reference_freq_at_end conf htbl
  unfold resolved_index
  by_cases h : target_freq = freq_at conf index
  · simp only [h, ne_eq, not_true_eq_false, if_false]
    by_contra hc
    have h10 : index = 10 := by
      simp only [FREQ_TABLE_SIZE] at hidx
      omega
    rw [h10, hend] at h
    omega
  · simp only [ne_eq, h, not_false_eq_true, if_true]
    unfold sprd_find_freqtbl_index
    rcases sprd_find_freqtbl_index_loop_spec conf target_freq FREQ_TABLE_SIZE 0 NOC
      (by simp) with ⟨k, _, hk2, hk3, _, hk5⟩ | ⟨_, hres⟩
    · rw [hk5]
      by_contra hc
      have h10 : k = 10 := by
        simp only [FREQ_TABLE_SIZE] at hk2
        omega
      rw [h10, hend] at hk3
      omega
    · rw [hres]
      simp [NOC]

/-! ## Frequency never outruns voltage -/

/-- The hardware after lines 256-262, by direction. -/
theorem apply_transition_hw (H : HwOps σ) (hw : σ) (cur new_freq new_volt : Nat) :
    (apply_transition H hw cur new_freq new_volt).1 =
      if cur < new_freq then sprd_raw_setfreq H (sprd_raw_setvolt H hw new_volt) new_freq
      else if new_freq < cur then
        sprd_raw_setvolt H (sprd_raw_setfreq H hw new_freq) new_volt
      else hw := by
  unfold apply_transition
  by_cases h1 : cur < new_freq
  · have h2 : new_freq ≠ cur := by omega
    have h3 : ¬ new_freq < cur := by omega
    simp [h1, h2, h3]
  · by_cases h2 : new_freq < cur
    · have h3 : new_freq ≠ cur := by omega
      simp [h1, h2, h3]
    · have h3 : new_freq = cur := by omega
      simp [h3]

/-- The four outcomes of a call, by the checks it makes in order. -/
theorem target_paths (K : KernelConfig) (H : HwOps σ) (s : Driver σ)
    (j : JiffiesReads) (target_freq index : Nat) :
    sprd_cpufreq_target K H s j target_freq index = ⟨0, s, [.read_boot_time]⟩ ∨
    sprd_cpufreq_target K H s j target_freq index =
      ⟨0, s, [.read_boot_time, .read_trans_time]⟩ ∨
    sprd_cpufreq_target K H s j target_freq index =
      ⟨-EINVAL, s, [.read_boot_time, .read_trans_time]⟩ ∨
    sprd_cpufreq_target K H s j target_freq index =
      ⟨0, s, [.read_boot_time, .read_trans_time, .mutex_lock, .read_freqs_old,
              .mutex_unlock]⟩ ∨
    (admitted s j ∧ in_limits s target_freq ∧ target_freq ≠ s.global_freqs.old) := by
  by_cases hb : time_before j.at_boot_check s.boot_time = true
  · exact Or.inl (target_boot_blocked K H s j target_freq index hb)
  · have hb2 : time_before j.at_boot_check s.boot_time = false := by simpa using hb
    by_cases ht : time_before j.at_trans_check s.trans_time = true
    · exact Or.inr (Or.inl (target_trans_blocked K H s j target_freq index hb2 ht))
    · have ht2 : time_before j.at_trans_check s.trans_time = false := by simpa using ht
      have hadm : admitted s j := ⟨hb2, ht2⟩
      by_cases hl : target_freq < s.freq_min_limit ∨ target_freq > s.freq_max_limit
      · exact Or.inr (Or.inr (Or.inl
          (target_out_of_limits K H s j target_freq index hadm hl)))
      · have hlim : in_limits s target_freq := by
          constructor <;> omega
        by_cases ho : target_freq = s.global_freqs.old
        · exact Or.inr (Or.inr (Or.inr (Or.inl
            (target_debounced K H s j target_freq index hadm hlim ho))))
        · exact Or.inr (Or.inr (Or.inr (Or.inr ⟨hadm, hlim, ho⟩)))

/-- The hardware state a call returns is the one obtained by replaying the hardware
writes of its trace, on any hardware. -/
theorem target_hw_replay (K : KernelConfig) (H : HwOps σ) (s : Driver σ)
    (j : JiffiesReads) (target_freq index : Nat) :
    (sprd_cpufreq_target K H s j target_freq index).state.hw =
      (sprd_cpufreq_target K H s j target_freq index).trace.foldl (hw_step H) s.hw := by
  rcases target_paths K H s j target_freq index with h | h | h | h | ⟨hadm, hlim, hne⟩
  · rw [h]; rfl
  · rw [h]; rfl
  · rw [h]; rfl
  · rw [h]; rfl
  · rw [target_executed K H s j target_freq index hadm hlim hne]
    simp only [apply_transition_hw, apply_transition_writes]
    split_ifs <;> simp [hw_step]

/-- No call changes the tables or the limits. -/
theorem target_conf_unchanged (K : KernelConfig) (H : HwOps σ) (s : Driver σ)
    (j : JiffiesReads) (target_freq index : Nat) :
    (sprd_cpufreq_target K H s j target_freq index).state.conf = s.conf := by
  rcases target_paths K H s j target_freq index with h | h | h | h | ⟨hadm, hlim, hne⟩
  · rw [h]
  · rw [h]
  · rw [h]
  · rw [h]
  · rw [target_executed K H s j target_freq index hadm hlim hne]

/-- Going up on ideal hardware: raising the rail first keeps the old frequency
supported, and the new frequency then finds its voltage in place. -/
theorem ideal_up_supported (conf : cpufreq_conf) (hw : ClockRail) (r : Nat)
    (htbl : conf.freq_tbl = sc8810_cpufreq_table_data.freq_tbl)
    (hmono : vdduv_nonincreasing conf) (hstart : supported conf ideal_hw hw)
    (hr : r < 10) (hup : sprd_raw_getfreq ideal_hw hw < freq_at conf r) :
    supported conf ideal_hw (sprd_raw_setvolt ideal_hw hw (vdduv_at conf r)) ∧
    supported conf ideal_hw
      (sprd_raw_setfreq ideal_hw (sprd_raw_setvolt ideal_hw hw (vdduv_at conf r))
        (freq_at conf r)) := by
  obtain ⟨k, hk, hf, hv⟩ := hstart
  have hfk := reference_freq_at conf htbl k hk
  have hfr := reference_freq_at conf htbl r hr
  have hrk : r ≤ k := by omega
  constructor
  · refine ⟨k, hk, ?_, ?_⟩
    · simpa [sprd_raw_getfreq, sprd_raw_setvolt, ideal_hw] using hf
    · simpa [sprd_raw_getvolt, sprd_raw_setvolt, ideal_hw] using hmono k hk r hrk
  · refine ⟨r, hr, ?_, ?_⟩
    · simp only [sprd_raw_getfreq, sprd_raw_setfreq, sprd_raw_setvolt, ideal_hw, WORD]
      omega
    · simp [sprd_raw_getvolt, sprd_raw_setfreq, sprd_raw_setvolt, ideal_hw]

/-- Going down on ideal hardware: lowering the clock first leaves the old voltage above
what the new frequency needs, and the rail may then follow. -/
theorem ideal_down_supported (conf : cpufreq_conf) (hw : ClockRail) (r : Nat)
    (htbl : conf.freq_tbl = sc8810_cpufreq_table_data.freq_tbl)
    (hmono : vdduv_nonincreasing conf) (hstart : supported conf ideal_hw hw)
    (hr : r < 10) (hdown : freq_at conf r < sprd_raw_getfreq ideal_hw hw) :
    supported conf ideal_hw (sprd_raw_setfreq ideal_hw hw (freq_at conf r)) ∧
    supported conf ideal_hw
      (sprd_raw_setvolt ideal_hw (sprd_raw_setfreq ideal_hw hw (freq_at conf r))
        (vdduv_at conf r)) := by
  obtain ⟨k, hk, hf, hv⟩ := hstart
  have hfk := reference_freq_at conf htbl k hk
  have hfr := reference_freq_at conf htbl r hr
  have hkr : k ≤ r := by omega
  have hvr : vdduv_at conf r ≤ vdduv_at conf k := hmono r hr k hkr
  constructor
  · refine ⟨r, hr, ?_, ?_⟩
    · simp only [sprd_raw_getfreq, sprd_raw_setfreq, ideal_hw, WORD]
      omega
    · have hv2 : vdduv_at conf k ≤ hw.uv := by
        simpa [sprd_raw_getvolt, ideal_hw] using hv
      simp only [sprd_raw_getvolt, sprd_raw_setfreq, ideal_hw]
      omega
  · refine ⟨r, hr, ?_, ?_⟩
    · simp only [sprd_raw_getfreq, sprd_raw_setfreq, sprd_raw_setvolt, ideal_hw, WORD]
      omega
    · simp [sprd_raw_getvolt, sprd_raw_setfreq, sprd_raw_setvolt, ideal_hw]

/-- C2. On ideal hardware (every set takes effect), with the reference frequency table,
a voltage table that does not increase along the usable indices 0..9, a maximum limit
below the terminator's bucket (in particular the derived limit 1,500,000) and an
in-bounds hinted index: if the hardware starts at the frequency of a usable level with
at least that level's voltage, then so it is after every single event of the call, hence
after each hardware write, and at the end of the call; the final hardware state is the
replay of the writes of the trace. -/
theorem target_keeps_supported (K : KernelConfig) (s : Driver ClockRail)
    (j : JiffiesReads) (target_freq index : Nat)
    (htbl : s.conf.freq_tbl = sc8810_cpufreq_table_data.freq_tbl)
    (hmax : s.freq_max_limit < 4294900000)
    (hidx : index < FREQ_TABLE_SIZE)
    (hmono : vdduv_nonincreasing s.conf)
    (hstart : supported s.conf ideal_hw s.hw) :
    (∀ st, st ∈ hw_history ideal_hw s.hw
        (sprd_cpufreq_target K ideal_hw s j target_freq index).trace →
      supported s.conf ideal_hw st) ∧
    supported s.conf ideal_hw
      (sprd_cpufreq_target K ideal_hw s j target_freq index).state.hw ∧
    (sprd_cpufreq_target K ideal_hw s j target_freq index).state.hw =
      (sprd_cpufreq_target K ideal_hw s j target_freq index).trace.foldl
        (hw_step ideal_hw) s.hw := by
  refine ⟨?_, ?_, target_hw_replay K ideal_hw s j target_freq index⟩
  · rcases target_paths K ideal_hw s j target_freq index with
      h | h | h | h | ⟨hadm, hlim, hne⟩
    · rw [h]; intro st hst; simp [hw_history, hw_step] at hst; rw [hst]; exact hstart
    · rw [h]; intro st hst; simp [hw_history, hw_step] at hst; rw [hst]; exact hstart
    · rw [h]; intro st hst; simp [hw_history, hw_step] at hst; rw [hst]; exact hstart
    · rw [h]; intro st hst; simp [hw_history, hw_step] at hst; rw [hst]; exact hstart
    · have hr := reference_resolved_index_usable s.conf htbl target_freq index hidx
        (lt_of_le_of_lt hlim.2 hmax)
      rw [target_executed K ideal_hw s j target_freq index hadm hlim hne,
        apply_transition_writes, resolved_freq_eq]
      split_ifs with h1 h2
      · have hup := ideal_up_supported s.conf s.hw _ htbl hmono hstart hr h1
        simp only [List.cons_append, List.nil_append, hw_history, hw_step,
          List.forall_mem_cons]
        simp [hstart, hup.1, hup.2]
      · have hdown := ideal_down_supported s.conf s.hw _ htbl hmono hstart hr h2
        simp only [List.cons_append, List.nil_append, hw_history, hw_step,
          List.forall_mem_cons]
        simp [hstart, hdown.1, hdown.2]
      · simp only [List.cons_append, List.nil_append, List.append_nil, hw_history,
          hw_step, List.forall_mem_cons]
        simp [hstart]
  · rcases target_paths K ideal_hw s j target_freq index with
      h | h | h | h | ⟨hadm, hlim, hne⟩
    · rw [h]; exact hstart
    · rw [h]; exact hstart
    · rw [h]; exact hstart
    · rw [h]; exact hstart
    · have hr := reference_resolved_index_usable s.conf htbl target_freq index hidx
        (lt_of_le_of_lt hlim.2 hmax)
      rw [target_executed K ideal_hw s j target_freq index hadm hlim hne]
      simp only [apply_transition_hw, resolved_freq_eq]
      split_ifs with h1 h2
      · exact (ideal_up_supported s.conf s.hw _ htbl hmono hstart hr h1).2
      · exact (ideal_down_supported s.conf s.hw _ htbl hmono hstart hr h2).2
      · exact hstart

/-- C2 at a concrete input: the reference driver going from 600 MHz up to 1.2 GHz. -/
theorem target_keeps_supported_witness :
    idle_at_600.conf.freq_tbl = sc8810_cpufreq_table_data.freq_tbl ∧
    idle_at_600.freq_max_limit < 4294900000 ∧ 3 < FREQ_TABLE_SIZE ∧
    vdduv_nonincreasing idle_at_600.conf ∧
    supported idle_at_600.conf ideal_hw idle_at_600.hw ∧
    supported idle_at_600.conf ideal_hw
      (sprd_cpufreq_target kernel_hz100 ideal_hw idle_at_600 ⟨0, 0, 0⟩
        1200000 3).state.hw :=
  ⟨rfl, by decide, by decide, by decide, ⟨9, by decide, by decide, by decide⟩,
   (target_keeps_supported kernel_hz100 idle_at_600 ⟨0, 0, 0⟩ 1200000 3 rfl
     (by decide) (by decide) (by decide) ⟨9, by decide, by decide, by decide⟩).2.1⟩

/-! ## What is recorded after a transition -/

/-- An executed transition records the resolved frequency as the last frequency,
whatever the hardware reports afterwards, and returns success. -/
theorem target_records_resolved (K : KernelConfig) (H : HwOps σ) (s : Driver σ)
    (j : JiffiesReads) (target_freq index : Nat) (hadm : admitted s j)
    (hlim : in_limits s target_freq) (hne : target_freq ≠ s.global_freqs.old) :
    (sprd_cpufreq_target K H s j target_freq index).ret = 0 ∧
    (sprd_cpufreq_target K H s j target_freq index).state.global_freqs.old =
      resolved_freq s.conf target_freq index := by
  rw [target_executed K H s j target_freq index hadm hlim hne]
  exact ⟨rfl, rfl⟩

/-- C3, the code at a failing input.  The clock refuses the change from 1,000,000 kHz to
900,000 kHz: the call returns success, the hardware reads back 1,000,000 kHz after the
writes, and yet `global_freqs.old` holds the requested 900,000 kHz. -/
theorem target_mismatch_records_request :
    (sprd_cpufreq_target kernel_hz100 stuck_clock_hw stuck_at_1000 ⟨0, 0, 0⟩
      900000 6).ret = 0 ∧
    sprd_raw_getfreq stuck_clock_hw
      (sprd_cpufreq_target kernel_hz100 stuck_clock_hw stuck_at_1000 ⟨0, 0, 0⟩
        900000 6).state.hw = 1000000 ∧
    (sprd_cpufreq_target kernel_hz100 stuck_clock_hw stuck_at_1000 ⟨0, 0, 0⟩
      900000 6).state.global_freqs.old = 900000 := by
  decide

/-! ## Requests that change nothing -/

/-- C4. An admitted request whose target lies below `freq_min_limit` or above
`freq_max_limit` returns `-EINVAL`, touches no hardware, sends no notification and
leaves every global and the hardware as they were, so `sprd_cpufreq_getspeed(0)` reports
the same frequency as before. -/
theorem target_out_of_range_rejected (K : KernelConfig) (H : HwOps σ) (s : Driver σ)
    (j : JiffiesReads) (target_freq index : Nat) (hadm : admitted s j)
    (h : target_freq < s.freq_min_limit ∨ target_freq > s.freq_max_limit) :
    (sprd_cpufreq_target K H s j target_freq index).ret = -EINVAL ∧
    hw_accesses (sprd_cpufreq_target K H s j target_freq index).trace = [] ∧
    notifications (sprd_cpufreq_target K H s j target_freq index).trace = [] ∧
    (sprd_cpufreq_target K H s j target_freq index).state = s ∧
    sprd_cpufreq_getspeed H (sprd_cpufreq_target K H s j target_freq index).state 0 =
      sprd_cpufreq_getspeed H s 0 := by
  rw [target_out_of_limits K H s j target_freq index hadm h]
  simp [hw_accesses, notifications, Event.is_hw_access, Event.is_notify]

/-- C4 at a concrete input: 2,000,000 kHz against the limits 600,000..1,500,000. -/
theorem target_out_of_range_rejected_witness :
    admitted idle_at_1000 ⟨0, 0, 0⟩ ∧
    (2000000 < idle_at_1000.freq_min_limit ∨ 2000000 > idle_at_1000.freq_max_limit) ∧
    (sprd_cpufreq_target kernel_hz100 ideal_hw idle_at_1000 ⟨0, 0, 0⟩
      2000000 5).ret = -EINVAL ∧
    sprd_cpufreq_getspeed ideal_hw
      (sprd_cpufreq_target kernel_hz100 ideal_hw idle_at_1000 ⟨0, 0, 0⟩
        2000000 5).state 0 = sprd_cpufreq_getspeed ideal_hw idle_at_1000 0 :=
  ⟨by decide, by decide,
   (target_out_of_range_rejected kernel_hz100 ideal_hw idle_at_1000 ⟨0, 0, 0⟩ 2000000 5
     (by decide) (by decide)).1,
   (target_out_of_range_rejected kernel_hz100 ideal_hw idle_at_1000 ⟨0, 0, 0⟩ 2000000 5
     (by decide) (by decide)).2.2.2.2⟩

/-- C5. An admitted request within the limits whose target equals the recorded last
frequency returns success, touches no hardware, sends no notification and leaves every
global and the hardware as they were. -/
theorem target_same_as_last_noop (K : KernelConfig) (H : HwOps σ) (s : Driver σ)
    (j : JiffiesReads) (target_freq index : Nat) (hadm : admitted s j)
    (hlim : in_limits s target_freq) (h : target_freq = s.global_freqs.old) :
    (sprd_cpufreq_target K H s j target_freq index).ret = 0 ∧
    hw_accesses (sprd_cpufreq_target K H s j target_freq index).trace = [] ∧
    notifications (sprd_cpufreq_target K H s j target_freq index).trace = [] ∧
    (sprd_cpufreq_target K H s j target_freq index).state = s := by
  rw [target_debounced K H s j target_freq index hadm hlim h]
  simp [hw_accesses, notifications, Event.is_hw_access, Event.is_notify]

/-- C5 at a concrete input: the nominal frequency requested again. -/
theorem target_same_as_last_noop_witness :
    admitted idle_at_1000 ⟨0, 0, 0⟩ ∧ in_limits idle_at_1000 1000000 ∧
    1000000 = idle_at_1000.global_freqs.old ∧
    (sprd_cpufreq_target kernel_hz100 ideal_hw idle_at_1000 ⟨0, 0, 0⟩
      1000000 5).state = idle_at_1000 :=
  ⟨by decide, by decide, by decide,
   (target_same_as_last_noop kernel_hz100 ideal_hw idle_at_1000 ⟨0, 0, 0⟩ 1000000 5
     (by decide) (by decide) (by decide)).2.2.2⟩

/-- C6. A request whose tick count precedes `boot_time`, or precedes `trans_time`,
returns success for every target, touches no hardware, sends no notification and leaves
every global and the hardware as they were. -/
theorem target_rate_limited (K : KernelConfig) (H : HwOps σ) (s : Driver σ)
    (j : JiffiesReads) (target_freq index : Nat)
    (h : time_before j.at_boot_check s.boot_time = true ∨
      time_before j.at_trans_check s.trans_time = true) :
    (sprd_cpufreq_target K H s j target_freq index).ret = 0 ∧
    hw_accesses (sprd_cpufreq_target K H s j target_freq index).trace = [] ∧
    notifications (sprd_cpufreq_target K H s j target_freq index).trace = [] ∧
    (sprd_cpufreq_target K H s j target_freq index).state = s := by
  by_cases hb : time_before j.at_boot_check s.boot_time = true
  · rw [target_boot_blocked K H s j target_freq index hb]
    simp [hw_accesses, notifications, Event.is_hw_access, Event.is_notify]
  · have hb2 : time_before j.at_boot_check s.boot_time = false := by simpa using hb
    have ht : time_before j.at_trans_check s.trans_time = true := by
      rcases h with h | h
      · exact absurd h hb
      · exact h
    rw [target_trans_blocked K H s j target_freq index hb2 ht]
    simp [hw_accesses, notifications, Event.is_hw_access, Event.is_notify]

/-- C6 at a concrete input: tick 5 against a next allowed time of 10, with a target far
out of range. -/
theorem target_rate_limited_witness :
    (time_before 5 0 = true ∨ time_before 5 10 = true) ∧
    (sprd_cpufreq_target kernel_hz100 ideal_hw
      { idle_at_1000 with trans_time := 10 } ⟨5, 5, 5⟩ 2000000 5).ret = 0 :=
  ⟨by decide,
   (target_rate_limited kernel_hz100 ideal_hw { idle_at_1000 with trans_time := 10 }
     ⟨5, 5, 5⟩ 2000000 5 (by decide)).1⟩

/-! ## The boot window -/

/-- C7 as stated fails.  On a kernel with `HZ = 100` the module starts at tick 100000;
a request at tick 100500, five seconds later and so inside the 60 seconds after the
start, is not ignored: it lowers the clock and the rail and records a new last
frequency. -/
theorem boot_window_counterexample :
    (100000 ≤ 100500 ∧ 100500 < 100000 + 60 * kernel_hz100.HZ) ∧
    started_late.global_freqs.old = 1000000 ∧
    hw_writes (sprd_cpufreq_target kernel_hz100 ideal_hw started_late
      ⟨100500, 100500, 100500⟩ 900000 6).trace =
      [.raw_setfreq 900000, .raw_setvolt 800000] ∧
    (sprd_cpufreq_target kernel_hz100 ideal_hw started_late
      ⟨100500, 100500, 100500⟩ 900000 6).state.global_freqs.old = 900000 := by
  decide

/-- C7 amended.  The boot window ends at the absolute tick count `60 * HZ`, wherever the
module start `t0` lies: after a module start that acquired clock and regulator,
`boot_time` is `60 * HZ`, and every request whose tick count precedes `60 * HZ` is
ignored, with success returned, no hardware access, no notification and no change of
any global or of the hardware. -/
theorem boot_window_absolute (K : KernelConfig) (H : HwOps σ) (s0 : Driver σ)
    (t0 : Nat) (j : JiffiesReads) (target_freq index : Nat)
    (h : time_before j.at_boot_check (60 * K.HZ % WORD) = true) :
    (sprd_cpufreq_modinit K H s0 t0 false false).boot_time = 60 * K.HZ % WORD ∧
    (sprd_cpufreq_target K H (sprd_cpufreq_modinit K H s0 t0 false false) j
      target_freq index).ret = 0 ∧
    hw_accesses (sprd_cpufreq_target K H (sprd_cpufreq_modinit K H s0 t0 false false) j
      target_freq index).trace = [] ∧
    notifications (sprd_cpufreq_target K H (sprd_cpufreq_modinit K H s0 t0 false false)
      j target_freq index).trace = [] ∧
    (sprd_cpufreq_target K H (sprd_cpufreq_modinit K H s0 t0 false false) j
      target_freq index).state = sprd_cpufreq_modinit K H s0 t0 false false := by
  have hbt : (sprd_cpufreq_modinit K H s0 t0 false false).boot_time =
      60 * K.HZ % WORD := by
    simp [sprd_cpufreq_modinit, WAIT_BOOT_TIME]
  have hb : time_before j.at_boot_check
      (sprd_cpufreq_modinit K H s0 t0 false false).boot_time = true := by
    rw [hbt]
    exact h
  rw [target_boot_blocked K H _ j target_freq index hb]
  refine ⟨hbt, ?_⟩
  simp [hw_accesses, notifications, Event.is_hw_access, Event.is_notify]

/-- C7 amended, at a concrete input: a start half a second after the kernel's initial
tick count and a request one second later. -/
theorem boot_window_absolute_witness :
    time_before 4294937446 (60 * kernel_hz100.HZ % WORD) = true ∧
    (sprd_cpufreq_target kernel_hz100 ideal_hw started_at_boot
      ⟨4294937446, 4294937446, 4294937446⟩ 900000 6).state = started_at_boot :=
  ⟨by decide,
   (boot_window_absolute kernel_hz100 ideal_hw (initial_driver ⟨1000000000, 850000⟩)
     4294937346 ⟨4294937446, 4294937446, 4294937446⟩ 900000 6 (by decide)).2.2.2.2⟩

/-! ## The minimum interval between transitions -/

/-- A tick count less than `m` ticks after `t` precedes `t + m`, in wrapping 32-bit
arithmetic, as long as `m` does not exceed half the range. -/
theorem time_before_within (t d m : Nat) (hd : d < m) (hm : m ≤ 2147483648) :
    time_before ((t + d) % WORD) ((t + m) % WORD) = true := by
  simp only [time_before, WORD, decide_eq_true_eq]
  omega

/-- C8. An executed transition whose final tick read is `t` sets `trans_time` to
`t + msecs_to_jiffies(100)` in 32-bit arithmetic.  Every later request whose tick count
is `t + d` with `d < msecs_to_jiffies(100)` returns success, touches no hardware, sends
no notification and changes nothing, whatever its target.  A request that is rate
limited, out of range or equal to the recorded last frequency leaves `trans_time` as it
was.  The conversion `msecs_to_jiffies(100)` is assumed not to exceed half the tick
range. -/
theorem min_transition_interval (K : KernelConfig) (H : HwOps σ) (s : Driver σ)
    (j : JiffiesReads) (target_freq index : Nat) (hadm : admitted s j)
    (hlim : in_limits s target_freq) (hne : target_freq ≠ s.global_freqs.old)
    (hm : K.msecs_to_jiffies WAIT_TRANS_TIME ≤ 2147483648)
    (d : Nat) (hd : d < K.msecs_to_jiffies WAIT_TRANS_TIME)
    (j2 : JiffiesReads) (hj2 : j2.at_trans_check = (j.at_update + d) % WORD)
    (target2 index2 : Nat)
    (s3 : Driver σ) (j3 : JiffiesReads) (target3 index3 : Nat)
    (hskip : ¬ admitted s3 j3 ∨ ¬ in_limits s3 target3 ∨
      target3 = s3.global_freqs.old) :
    (sprd_cpufreq_target K H s j target_freq index).state.trans_time =
      (j.at_update + K.msecs_to_jiffies WAIT_TRANS_TIME) % WORD ∧
    ((sprd_cpufreq_target K H (sprd_cpufreq_target K H s j target_freq index).state j2
        target2 index2).ret = 0 ∧
      hw_accesses (sprd_cpufreq_target K H
        (sprd_cpufreq_target K H s j target_freq index).state j2
        target2 index2).trace = [] ∧
      notifications (sprd_cpufreq_target K H
        (sprd_cpufreq_target K H s j target_freq index).state j2
        target2 index2).trace = [] ∧
      (sprd_cpufreq_target K H (sprd_cpufreq_target K H s j target_freq index).state j2
        target2 index2).state = (sprd_cpufreq_target K H s j target_freq index).state) ∧
    (sprd_cpufreq_target K H s3 j3 target3 index3).state.trans_time = s3.trans_time := by
  have htt : (sprd_cpufreq_target K H s j target_freq index).state.trans_time =
      (j.at_update + K.msecs_to_jiffies WAIT_TRANS_TIME) % WORD := by
    rw [target_executed K H s j target_freq index hadm hlim hne]
  refine ⟨htt, ?_, ?_⟩
  · have hb : time_before j2.at_trans_check
        (sprd_cpufreq_target K H s j target_freq index).state.trans_time = true := by
      rw [htt, hj2]
      exact time_before_within j.at_update d _ hd hm
    by_cases hboot : time_before j2.at_boot_check
        (sprd_cpufreq_target K H s j target_freq index).state.boot_time = true
    · rw [target_boot_blocked K H _ j2 target2 index2 hboot]
      simp [hw_accesses, notifications, Event.is_hw_access, Event.is_notify]
    · have hboot2 : time_before j2.at_boot_check
          (sprd_cpufreq_target K H s j target_freq index).state.boot_time = false := by
        simpa using hboot
      rw [target_trans_blocked K H _ j2 target2 index2 hboot2 hb]
      simp [hw_accesses, notifications, Event.is_hw_access, Event.is_notify]
  · rcases target_paths K H s3 j3 target3 index3 with
      h | h | h | h | ⟨hadm3, hlim3, hne3⟩
    · rw [h]
    · rw [h]
    · rw [h]
    · rw [h]
    · rcases hskip with h | h | h
      · exact absurd hadm3 h
      · exact absurd hlim3 h
      · exact absurd h hne3

/-- C8 at a concrete input: a transition completed at tick 1000 on a kernel with
`HZ = 100` blocks a request for another target 9 ticks later. -/
theorem min_transition_interval_witness :
    admitted idle_at_1000 ⟨1000, 1000, 1000⟩ ∧ in_limits idle_at_1000 900000 ∧
    900000 ≠ idle_at_1000.global_freqs.old ∧
    kernel_hz100.msecs_to_jiffies WAIT_TRANS_TIME ≤ 2147483648 ∧
    9 < kernel_hz100.msecs_to_jiffies WAIT_TRANS_TIME ∧
    (⟨1009, 1009, 1009⟩ : JiffiesReads).at_trans_check = (1000 + 9) % WORD ∧
    (¬ admitted idle_at_1000 ⟨0, 0, 0⟩ ∨ ¬ in_limits idle_at_1000 2000000 ∨
      2000000 = idle_at_1000.global_freqs.old) ∧
    (sprd_cpufreq_target kernel_hz100 ideal_hw idle_at_1000 ⟨1000, 1000, 1000⟩
      900000 6).state.trans_time = (1000 + kernel_hz100.msecs_to_jiffies WAIT_TRANS_TIME)
        % WORD ∧
    (sprd_cpufreq_target kernel_hz100 ideal_hw
      (sprd_cpufreq_target kernel_hz100 ideal_hw idle_at_1000 ⟨1000, 1000, 1000⟩
        900000 6).state ⟨1009, 1009, 1009⟩ 1500000 0).ret = 0 ∧
    hw_accesses (sprd_cpufreq_target kernel_hz100 ideal_hw
      (sprd_cpufreq_target kernel_hz100 ideal_hw idle_at_1000 ⟨1000, 1000, 1000⟩
        900000 6).state ⟨1009, 1009, 1009⟩ 1500000 0).trace = [] :=
  ⟨by decide, by decide, by decide, by decide, by decide, by decide, by decide,
   (min_transition_interval kernel_hz100 ideal_hw idle_at_1000 ⟨1000, 1000, 1000⟩
     900000 6 (by decide) (by decide) (by decide) (by decide) 9 (by decide)
     ⟨1009, 1009, 1009⟩ (by decide) 1500000 0 idle_at_1000 ⟨0, 0, 0⟩ 2000000 5
     (by decide)).1,
   (min_transition_interval kernel_hz100 ideal_hw idle_at_1000 ⟨1000, 1000, 1000⟩
     900000 6 (by decide) (by decide) (by decide) (by decide) 9 (by decide)
     ⟨1009, 1009, 1009⟩ (by decide) 1500000 0 idle_at_1000 ⟨0, 0, 0⟩ 2000000 5
     (by decide)).2.1.1,
   (min_transition_interval kernel_hz100 ideal_hw idle_at_1000 ⟨1000, 1000, 1000⟩
     900000 6 (by decide) (by decide) (by decide) (by decide) 9 (by decide)
     ⟨1009, 1009, 1009⟩ (by decide) 1500000 0 idle_at_1000 ⟨0, 0, 0⟩ 2000000 5
     (by decide)).2.1.2.1⟩

/-! ## End to end on the reference table -/

/-- On the reference table no slot holds 905,000 kHz. -/
theorem reference_no_905 (conf : cpufreq_conf)
    (htbl : conf.freq_tbl = sc8810_cpufreq_table_data.freq_tbl) (index : Nat)
    (hidx : index < FREQ_TABLE_SIZE) : 905000 ≠ freq_at conf index := by
  simp only [FREQ_TABLE_SIZE] at hidx
  interval_cases index <;>
    simp [freq_at, htbl, sc8810_cpufreq_table_data, CPUFREQ_TABLE_END]

/-- C10. On the reference table with the derived limits, the recorded last frequency
1,000,000 kHz and the hardware reading 1,000,000 kHz, an admitted request for
905,000 kHz with any in-bounds hinted index resolves to `UC1`, which is index 6; the
hardware writes are exactly frequency 900,000 kHz and then voltage 800,000 uV; the call
returns success and the recorded last frequency is 900,000 kHz afterwards. -/
theorem end_to_end_905 (K : KernelConfig) (H : HwOps σ) (s : Driver σ)
    (j : JiffiesReads) (index : Nat)
    (hconf : s.conf =
      ⟨sc8810_cpufreq_table_data.freq_tbl, sc8810_cpufreq_table_data.vdduv_tbl⟩)
    (hmin : s.freq_min_limit = 600000) (hmax : s.freq_max_limit = 1500000)
    (hold : s.global_freqs.old = 1000000) (hhw : sprd_raw_getfreq H s.hw = 1000000)
    (hadm : admitted s j) (hidx : index < FREQ_TABLE_SIZE) :
    resolved_index s.conf 905000 index = UC1 ∧ UC1 = 6 ∧
    hw_writes (sprd_cpufreq_target K H s j 905000 index).trace =
      [.raw_setfreq 900000, .raw_setvolt 800000] ∧
    (sprd_cpufreq_target K H s j 905000 index).ret = 0 ∧
    (sprd_cpufreq_target K H s j 905000 index).state.global_freqs.old = 900000 := by
  have htbl : s.conf.freq_tbl = sc8810_cpufreq_table_data.freq_tbl := by rw [hconf]
  have hno := reference_no_905 s.conf htbl index hidx
  have hfind : sprd_find_freqtbl_index s.conf 905000 = 6 := by
    rw [hconf]
    decide
  have hri : resolved_index s.conf 905000 index = 6 := by
    simp [resolved_index, hno, hfind]
  have hrf : resolved_freq s.conf 905000 index = 900000 := by
    rw [resolved_freq_eq, hri, hconf]
    decide
  have hv : vdduv_at s.conf 6 = 800000 := by
    rw [hconf]
    decide
  have hlim : in_limits s 905000 := by
    constructor
    · rw [hmin]; decide
    · rw [hmax]; decide
  have hne : 905000 ≠ s.global_freqs.old := by
    rw [hold]; decide
  have hw := target_executed_writes K H s j 905000 index hadm hlim hne
  have hrec := target_records_resolved K H s j 905000 index hadm hlim hne
  rw [apply_transition_writes, hrf, hri, hhw, hv] at hw
  rw [hrf] at hrec
  exact ⟨by rw [hri]; rfl, rfl, by rw [hw]; decide, hrec.1, hrec.2⟩

/-- C10 at a concrete input: the hinted index 5 on ideal hardware. -/
theorem end_to_end_905_witness :
    idle_at_1000.conf =
      ⟨sc8810_cpufreq_table_data.freq_tbl, sc8810_cpufreq_table_data.vdduv_tbl⟩ ∧
    idle_at_1000.freq_min_limit = 600000 ∧ idle_at_1000.freq_max_limit = 1500000 ∧
    idle_at_1000.global_freqs.old = 1000000 ∧
    sprd_raw_getfreq ideal_hw idle_at_1000.hw = 1000000 ∧
    admitted idle_at_1000 ⟨7, 7, 8⟩ ∧ 5 < FREQ_TABLE_SIZE ∧
    hw_writes (sprd_cpufreq_target kernel_hz100 ideal_hw idle_at_1000 ⟨7, 7, 8⟩
      905000 5).trace = [.raw_setfreq 900000, .raw_setvolt 800000] :=
  ⟨rfl, rfl, rfl, rfl, by decide, by decide, by decide,
   (end_to_end_905 kernel_hz100 ideal_hw idle_at_1000 ⟨7, 7, 8⟩ 5 rfl rfl rfl rfl
     (by decide) (by decide) (by decide)).2.2.1⟩

/-! ## Limits derived from the table -/

/-- The loop of `sprd_gen_freq_table` stops at the first terminator at or after its
starting slot. -/
theorem sprd_gen_freq_table_loop_spec (conf : cpufreq_conf) (k : Nat)
    (hk : k < FREQ_TABLE_SIZE) (hend : freq_at conf k = CPUFREQ_TABLE_END) :
    ∀ n i, i ≤ k → FREQ_TABLE_SIZE ≤ i + n →
      (∀ m, i ≤ m → m < k → freq_at conf m ≠ CPUFREQ_TABLE_END) →
      sprd_gen_freq_table_loop conf n i = k := by
  intro n
  induction n with
  | zero =>
    intro i hik hn _
    omega
  | succ n ih =>
    intro i hik hn hno
    have hi : i < FREQ_TABLE_SIZE := by omega
    rw [sprd_gen_freq_table_loop, if_pos hi]
    by_cases he : freq_at conf i = CPUFREQ_TABLE_END
    · rw [if_pos he]
      by_contra hne
      exact hno i (le_refl i) (by omega) he
    · rw [if_neg he]
      have hik2 : i ≠ k := fun e => he (e ▸ hend)
      exact ih (i + 1) (by omega) (by omega) (fun m h1 h2 => hno m (by omega) h2)

/-- C11. The reference table is strictly descending in frequency over the indices 0..9.
After `sprd_gen_freq_table` run on any table whose first terminator sits at an index
`k >= 1`, `freq_max_limit` is the frequency of slot 0 and `freq_min_limit` the frequency
of slot `k - 1`, the last entry before the terminator.  For the reference table the
limits are 1,500,000 and 600,000 kHz. -/
theorem gen_freq_table_limits (s : Driver σ) (data : cpufreq_table_data) (k : Nat)
    (hk1 : 1 ≤ k) (hk : k < FREQ_TABLE_SIZE)
    (hend : freq_at ⟨data.freq_tbl, data.vdduv_tbl⟩ k = CPUFREQ_TABLE_END)
    (hfirst : ∀ m, m < k → freq_at ⟨data.freq_tbl, data.vdduv_tbl⟩ m ≠ CPUFREQ_TABLE_END) :
    (∀ a b, a < b → b < 10 → freq_at reference_conf b < freq_at reference_conf a) ∧
    (sprd_gen_freq_table_from data s).conf = ⟨data.freq_tbl, data.vdduv_tbl⟩ ∧
    (sprd_gen_freq_table_from data s).freq_max_limit =
      freq_at ⟨data.freq_tbl, data.vdduv_tbl⟩ 0 ∧
    (sprd_gen_freq_table_from data s).freq_min_limit =
      freq_at ⟨data.freq_tbl, data.vdduv_tbl⟩ (k - 1) ∧
    (sprd_gen_freq_table s).freq_max_limit = 1500000 ∧
    (sprd_gen_freq_table s).freq_min_limit = 600000 := by
  refine ⟨?_, rfl, rfl, ?_, rfl, rfl⟩
  · intro a b hab hb
    rw [reference_freq_at reference_conf rfl b hb,
      reference_freq_at reference_conf rfl a (by omega)]
    omega
  · have hloop := sprd_gen_freq_table_loop_spec ⟨data.freq_tbl, data.vdduv_tbl⟩ k hk hend
      FREQ_TABLE_SIZE 1 hk1 (by simp) (fun m _ h2 => hfirst m h2)
    simp only [sprd_gen_freq_table_from, hloop]

/-- C11 at a concrete input: the reference table, whose terminator sits at index 10. -/
theorem gen_freq_table_limits_witness :
    1 ≤ 10 ∧ 10 < FREQ_TABLE_SIZE ∧
    freq_at ⟨sc8810_cpufreq_table_data.freq_tbl, sc8810_cpufreq_table_data.vdduv_tbl⟩ 10 =
      CPUFREQ_TABLE_END ∧
    (∀ m, m < 10 →
      freq_at ⟨sc8810_cpufreq_table_data.freq_tbl, sc8810_cpufreq_table_data.vdduv_tbl⟩ m ≠
        CPUFREQ_TABLE_END) ∧
    (sprd_gen_freq_table_from sc8810_cpufreq_table_data
      (initial_driver (ClockRail.mk 1000000000 850000))).freq_min_limit =
      freq_at ⟨sc8810_cpufreq_table_data.freq_tbl, sc8810_cpufreq_table_data.vdduv_tbl⟩
        (10 - 1) :=
  ⟨by decide, by decide, by decide, by decide,
   (gen_freq_table_limits (initial_driver (ClockRail.mk 1000000000 850000))
     sc8810_cpufreq_table_data 10 (by decide) (by decide) (by decide)
     (by decide)).2.2.2.1⟩

/-! ## Resolution on the reference table -/

/-- On the reference table the frequency of a usable slot resolves to that slot,
whatever the hint. -/
theorem reference_resolves_own_slot (conf : cpufreq_conf)
    (htbl : conf.freq_tbl = sc8810_cpufreq_table_data.freq_tbl) (i h : Nat)
    (hi : i < 10) (hh : h < FREQ_TABLE_SIZE) :
    resolved_index conf (freq_at conf i) h = i := by
  have hend := reference_freq_at_end conf htbl
  have hfi := reference_freq_at conf htbl i hi
  unfold resolved_index
  by_cases he : freq_at conf i = freq_at conf h
  · simp only [he, ne_eq, not_true_eq_false, if_false]
    by_cases h10 : h < 10
    · have hfh := reference_freq_at conf htbl h h10
      omega
    · have h10b : h = 10 := by
        simp only [FREQ_TABLE_SIZE] at hh
        omega
      rw [h10b, hend] at he
      omega
  · simp only [ne_eq, he, not_false_eq_true, if_true]
    unfold sprd_find_freqtbl_index
    rcases sprd_find_freqtbl_index_loop_spec conf (freq_at conf i) FREQ_TABLE_SIZE 0 NOC
      (by simp) with ⟨k, _, hk2, hk3, _, hk5⟩ | ⟨hno, _⟩
    · rw [hk5]
      by_cases hk10 : k < 10
      · have hfk := reference_freq_at conf htbl k hk10
        omega
      · have hk10b : k = 10 := by
          simp only [FREQ_TABLE_SIZE] at hk2
          omega
        rw [hk10b, hend] at hk3
        omega
    · exact absurd rfl (hno i (Nat.zero_le i) (by simp only [FREQ_TABLE_SIZE]; omega))

/-- C16. Index resolution is idempotent on the reference table: the frequency of every
usable index `i` resolves to `i` under every in-bounds hint, and so for every requested
frequency within the limits 600,000..1,500,000 and all in-bounds hints `h1`, `h2`,
resolving the frequency of the resolved index gives the resolved index again. -/
theorem resolution_idempotent (conf : cpufreq_conf)
    (htbl : conf.freq_tbl = sc8810_cpufreq_table_data.freq_tbl) (i h f h1 h2 : Nat)
    (hi : i < 10) (hh : h < FREQ_TABLE_SIZE) (hlo : 600000 ≤ f) (hhi : f ≤ 1500000)
    (hh1 : h1 < FREQ_TABLE_SIZE) (hh2 : h2 < FREQ_TABLE_SIZE) :
    resolved_index conf (freq_at conf i) h = i ∧
    resolved_index conf (freq_at conf (resolved_index conf f h1)) h2 =
      resolved_index conf f h1 ∧
    resolved_index conf (resolved_freq conf f h1) h2 = resolved_index conf f h1 := by
  have hr := reference_resolved_index_usable conf htbl f h1 hh1 (by omega)
  have h2nd := reference_resolves_own_slot conf htbl (resolved_index conf f h1) h2 hr hh2
  refine ⟨reference_resolves_own_slot conf htbl i h hi hh, h2nd, ?_⟩
  rw [resolved_freq_eq]
  exact h2nd

/-- C16 at a concrete input: 905 MHz resolves to slot 6 and its frequency does again. -/
theorem resolution_idempotent_witness :
    reference_conf.freq_tbl = sc8810_cpufreq_table_data.freq_tbl ∧
    7 < 10 ∧ 3 < FREQ_TABLE_SIZE ∧ 600000 ≤ 905000 ∧ 905000 ≤ 1500000 ∧
    10 < FREQ_TABLE_SIZE ∧ 0 < FREQ_TABLE_SIZE ∧
    resolved_index reference_conf (freq_at reference_conf 7) 3 = 7 ∧
    resolved_index reference_conf
      (freq_at reference_conf (resolved_index reference_conf 905000 10)) 0 =
      resolved_index reference_conf 905000 10 :=
  ⟨rfl, by decide, by decide, by decide, by decide, by decide, by decide,
   (resolution_idempotent reference_conf rfl 7 3 905000 10 0 (by decide) (by decide)
     (by decide) (by decide) (by decide) (by decide)).1,
   (resolution_idempotent reference_conf rfl 7 3 905000 10 0 (by decide) (by decide)
     (by decide) (by decide) (by decide) (by decide)).2.1⟩

/-- On the reference table every target within 600,000..1,500,000 has a usable slot in
its 100 MHz bucket, namely slot `15 - target / 100000`. -/
theorem reference_bucket_slot (conf : cpufreq_conf)
    (htbl : conf.freq_tbl = sc8810_cpufreq_table_data.freq_tbl) (target : Nat)
    (hlo : 600000 ≤ target) (hhi : target ≤ 1500000) :
    15 - target / 100000 < 10 ∧
    freq_at conf (15 - target / 100000) / 100000 = target / 100000 := by
  have h1 : 15 - target / 100000 < 10 := by omega
  refine ⟨h1, ?_⟩
  rw [reference_freq_at conf htbl _ h1]
  omega

/-- C20. On the reference table with the derived limits, for every target within
600,000..1,500,000 kHz and every hinted index 0..10: the index `sprd_cpufreq_target`
applies is a usable level 0..9, never the terminator slot; its frequency is
`(target / 100000) * 100000`; some slot of the table always lies in the target's bucket,
so the scan never ends on its nominal fallback; and an executed transition records that
frequency in `global_freqs.new`. -/
theorem in_limits_resolution (K : KernelConfig) (H : HwOps σ) (s : Driver σ)
    (j : JiffiesReads) (target h : Nat)
    (htbl : s.conf.freq_tbl = sc8810_cpufreq_table_data.freq_tbl)
    (hmin : s.freq_min_limit = 600000) (hmax : s.freq_max_limit = 1500000)
    (hlim : in_limits s target) (hh : h < FREQ_TABLE_SIZE) :
    resolved_index s.conf target h < 10 ∧
    freq_at s.conf (resolved_index s.conf target h) = target / 100000 * 100000 ∧
    resolved_freq s.conf target h = target / 100000 * 100000 ∧
    (∃ m, m < FREQ_TABLE_SIZE ∧ freq_at s.conf m / 100000 = target / 100000) ∧
    (admitted s j → target ≠ s.global_freqs.old →
      (sprd_cpufreq_target K H s j target h).state.global_freqs.new =
        target / 100000 * 100000) := by
  have hlo : 600000 ≤ target := by
    have := hlim.1
    omega
  have hhi : target ≤ 1500000 := by
    have := hlim.2
    omega
  have hend := reference_freq_at_end s.conf htbl
  have hb := reference_bucket_slot s.conf htbl target hlo hhi
  have hr := reference_resolved_index_usable s.conf htbl target h hh (by omega)
  have hfr := reference_freq_at s.conf htbl _ hr
  have hfreq : freq_at s.conf (resolved_index s.conf target h) =
      target / 100000 * 100000 := by
    by_cases he : target = freq_at s.conf h
    · have hri : resolved_index s.conf target h = h := by
        simp [resolved_index, he]
      rw [hri] at hfr hr ⊢
      omega
    · have hri : resolved_index s.conf target h =
          sprd_find_freqtbl_index s.conf target := by
        simp [resolved_index, he]
      rcases sprd_find_freqtbl_index_loop_spec s.conf target FREQ_TABLE_SIZE 0 NOC
        (by simp) with ⟨k, _, _, hk3, _, hk5⟩ | ⟨hno, _⟩
      · have hrk : resolved_index s.conf target h = k := by
          rw [hri]
          exact hk5
        rw [hrk] at hfr hr ⊢
        omega
      · exact absurd hb.2 (hno _ (Nat.zero_le _)
          (by simp only [FREQ_TABLE_SIZE]; omega))
  refine ⟨hr, hfreq, ?_, ⟨15 - target / 100000, ?_, hb.2⟩, ?_⟩
  · rw [resolved_freq_eq]
    exact hfreq
  · simp only [FREQ_TABLE_SIZE]
    omega
  · intro hadm hne
    rw [target_executed K H s j target h hadm hlim hne]
    simp only
    rw [resolved_freq_eq]
    exact hfreq

/-- C20 at a concrete input: 1,099,999 kHz with the terminator slot as hint is
truncated to 1,000,000 kHz. -/
theorem in_limits_resolution_witness :
    idle_at_600.conf.freq_tbl = sc8810_cpufreq_table_data.freq_tbl ∧
    idle_at_600.freq_min_limit = 600000 ∧ idle_at_600.freq_max_limit = 1500000 ∧
    in_limits idle_at_600 1099999 ∧ 10 < FREQ_TABLE_SIZE ∧
    admitted idle_at_600 ⟨0, 0, 0⟩ ∧ 1099999 ≠ idle_at_600.global_freqs.old ∧
    resolved_index idle_at_600.conf 1099999 10 < 10 ∧
    resolved_freq idle_at_600.conf 1099999 10 = 1099999 / 100000 * 100000 ∧
    (sprd_cpufreq_target kernel_hz100 ideal_hw idle_at_600 ⟨0, 0, 0⟩
      1099999 10).state.global_freqs.new = 1099999 / 100000 * 100000 :=
  ⟨rfl, rfl, rfl, by decide, by decide, by decide, by decide,
   (in_limits_resolution kernel_hz100 ideal_hw idle_at_600 ⟨0, 0, 0⟩ 1099999 10
     rfl rfl rfl (by decide) (by decide)).1,
   (in_limits_resolution kernel_hz100 ideal_hw idle_at_600 ⟨0, 0, 0⟩ 1099999 10
     rfl rfl rfl (by decide) (by decide)).2.2.1,
   (in_limits_resolution kernel_hz100 ideal_hw idle_at_600 ⟨0, 0, 0⟩ 1099999 10
     rfl rfl rfl (by decide) (by decide)).2.2.2.2 (by decide) (by decide)⟩

/-! ## Notifications -/

/-- The notifications of a call on any hardware: an executed transition sends one
before and one after the hardware section, both carrying the previous recorded
frequency and the resolved frequency; every other call sends none. -/
theorem target_notifications (K : KernelConfig) (H : HwOps σ) (s : Driver σ)
    (j : JiffiesReads) (target_freq index : Nat) :
    (admitted s j ∧ in_limits s target_freq ∧ target_freq ≠ s.global_freqs.old ∧
      notifications (sprd_cpufreq_target K H s j target_freq index).trace =
        [.notify_transition CPUFREQ_PRECHANGE s.global_freqs.old
           (resolved_freq s.conf target_freq index),
         .notify_transition CPUFREQ_POSTCHANGE s.global_freqs.old
           (resolved_freq s.conf target_freq index)]) ∨
    ((sprd_cpufreq_target K H s j target_freq index).state = s ∧
      notifications (sprd_cpufreq_target K H s j target_freq index).trace = []) := by
  rcases target_paths K H s j target_freq index with h | h | h | h | ⟨hadm, hlim, hne⟩
  · rw [h]; right; exact ⟨rfl, rfl⟩
  · rw [h]; right; exact ⟨rfl, rfl⟩
  · rw [h]; right; exact ⟨rfl, rfl⟩
  · rw [h]; right; exact ⟨rfl, rfl⟩
  · left
    refine ⟨hadm, hlim, hne, ?_⟩
    rw [target_executed K H s j target_freq index hadm hlim hne, apply_transition_writes]
    split_ifs <;> simp [notifications, Event.is_notify, List.filter]

/-- C17, the code at a failing input.  The clock refuses the change from 1,000,000 kHz
to 900,000 kHz.  The call sends one notification before and one after the hardware
section, and the hardware reads back 1,000,000 kHz after the writes, yet the
notification after the change carries the requested 900,000 kHz as the new frequency. -/
theorem target_mismatch_notifies_request :
    notifications (sprd_cpufreq_target kernel_hz100 stuck_clock_hw stuck_at_1000
      ⟨0, 0, 0⟩ 900000 6).trace =
      [.notify_transition CPUFREQ_PRECHANGE 1000000 900000,
       .notify_transition CPUFREQ_POSTCHANGE 1000000 900000] ∧
    sprd_raw_getfreq stuck_clock_hw
      (sprd_cpufreq_target kernel_hz100 stuck_clock_hw stuck_at_1000 ⟨0, 0, 0⟩
        900000 6).state.hw = 1000000 := by
  decide

/-! ## Locks -/

/-- C18. Over the trace of any single call: every hardware read or write happens with
both `freq_lock` and the exclusive hardware section held; the hardware section is
entered after the mutex is taken and left before it is released; notifications go out
with the mutex held and the hardware section not held; at the return no lock is held,
each lock having been taken at most once and released as often as taken. -/
theorem target_lock_discipline (K : KernelConfig) (H : HwOps σ) (s : Driver σ)
    (j : JiffiesReads) (target_freq index : Nat) :
    lock_discipline (sprd_cpufreq_target K H s j target_freq index).trace = true ∧
    count_events (fun e => decide (e = Event.mutex_lock))
        (sprd_cpufreq_target K H s j target_freq index).trace =
      count_events (fun e => decide (e = Event.mutex_unlock))
        (sprd_cpufreq_target K H s j target_freq index).trace ∧
    count_events (fun e => decide (e = Event.mutex_lock))
        (sprd_cpufreq_target K H s j target_freq index).trace ≤ 1 ∧
    count_events (fun e => decide (e = Event.hw_local_irq_save))
        (sprd_cpufreq_target K H s j target_freq index).trace =
      count_events (fun e => decide (e = Event.hw_local_irq_restore))
        (sprd_cpufreq_target K H s j target_freq index).trace ∧
    count_events (fun e => decide (e = Event.hw_local_irq_save))
        (sprd_cpufreq_target K H s j target_freq index).trace ≤ 1 := by
  rcases target_paths K H s j target_freq index with h | h | h | h | ⟨hadm, hlim, hne⟩
  · rw [h]; dsimp only; decide
  · rw [h]; dsimp only; decide
  · rw [h]; dsimp only; decide
  · rw [h]; dsimp only; decide
  · rw [target_executed K H s j target_freq index hadm hlim hne, apply_transition_writes]
    split_ifs <;>
      simp [lock_discipline, lock_step, count_events, List.filter]

/-- C19 as stated fails.  Already in an executed transition the two reads of the rate
limiter state for the admission check happen while `freq_lock` is not held. -/
theorem admission_outside_mutex_counterexample :
    (outside_mutex (sprd_cpufreq_target kernel_hz100 ideal_hw idle_at_1000 ⟨0, 0, 0⟩
      900000 6).trace).filter Event.is_state_access =
      [.read_boot_time, .read_trans_time] := by
  decide

/-- C19 amended.  In every call the only events that happen while `freq_lock` is not
held are the reads of `boot_time` and `trans_time` for the admission check, which come
before the mutex is taken; so every read of the recorded last frequency and every update
of `global_freqs` and `trans_time` happens with `freq_lock` held. -/
theorem mutex_covers_state_update (K : KernelConfig) (H : HwOps σ) (s : Driver σ)
    (j : JiffiesReads) (target_freq index : Nat) :
    (outside_mutex (sprd_cpufreq_target K H s j target_freq index).trace =
        [.read_boot_time] ∨
      outside_mutex (sprd_cpufreq_target K H s j target_freq index).trace =
        [.read_boot_time, .read_trans_time]) ∧
    (∀ e, e ∈ outside_mutex (sprd_cpufreq_target K H s j target_freq index).trace →
      e ≠ .read_freqs_old ∧ (∀ v, e ≠ .write_freqs_new v) ∧
      (∀ v, e ≠ .write_freqs_old v) ∧ (∀ v, e ≠ .write_trans_time v)) := by
  have hmain : outside_mutex (sprd_cpufreq_target K H s j target_freq index).trace =
        [.read_boot_time] ∨
      outside_mutex (sprd_cpufreq_target K H s j target_freq index).trace =
        [.read_boot_time, .read_trans_time] := by
    rcases target_paths K H s j target_freq index with
      h | h | h | h | ⟨hadm, hlim, hne⟩
    · rw [h]; left; rfl
    · rw [h]; right; rfl
    · rw [h]; right; rfl
    · rw [h]; right; rfl
    · rw [target_executed K H s j target_freq index hadm hlim hne,
        apply_transition_writes]
      right
      split_ifs <;> simp [outside_mutex, outside_mutex_from]
  refine ⟨hmain, fun e he => ?_⟩
  rcases hmain with h | h <;> rw [h] at he <;> simp at he
  · rw [he]; simp
  · rcases he with he | he <;> rw [he] <;> simp

/-! ## The voltage editor -/

/-- The scan loop never yields more values than it was allowed. -/
theorem sprd_vdd_set_scan_length (scan : Scanner) :
    ∀ n buf, (sprd_vdd_set_scan scan n buf).length ≤ n := by
  intro n
  induction n with
  | zero => intro buf; simp [sprd_vdd_set_scan]
  | succ n ih =>
    intro buf
    rw [sprd_vdd_set_scan]
    cases hs : scan buf with
    | none => simp
    | some r =>
      have := ih (buf.drop r.2)
      simp only [List.length_cons]
      omega

/-- The loop body keeps the length of the table. -/
theorem sprd_vdd_set_store_length (tbl : List Nat) (i : Nat) (x : Int) :
    (sprd_vdd_set_store tbl i x).length = tbl.length := by
  unfold sprd_vdd_set_store
  split_ifs <;> simp

/-- The loop body changes slot `i` as `vdd_slot_after` says and no other slot. -/
theorem sprd_vdd_set_store_getD (tbl : List Nat) (i : Nat) (x : Int) (m : Nat)
    (hi : i < tbl.length) :
    (sprd_vdd_set_store tbl i x).getD m 0 =
      if m = i then vdd_slot_after (tbl.getD i 0) x else tbl.getD m 0 := by
  unfold sprd_vdd_set_store vdd_slot_after
  by_cases hc : Int.tmod (vdd_clamp x) 25 = 0
  · simp only [hc, if_true, List.getD_eq_getElem?_getD, List.getElem?_set]
    by_cases hm : m = i
    · subst hm
      simp [hi]
    · have hm2 : ¬ i = m := fun e => hm e.symm
      simp [hm, hm2]
  · simp only [hc, if_false]
    by_cases hm : m = i
    · subst hm
      simp
    · simp [hm]

/-- The store loop, slot by slot: slot `m` takes the value at position `m - i` of the
list if there is one, and is left alone otherwise. -/
theorem sprd_vdd_set_apply_getD :
    ∀ (xs : List Int) (i : Nat) (tbl : List Nat) (m : Nat), i + xs.length ≤ tbl.length →
      (sprd_vdd_set_apply xs i tbl).getD m 0 =
        if i ≤ m then
          match xs[m - i]? with
          | some x => vdd_slot_after (tbl.getD m 0) x
          | none => tbl.getD m 0
        else tbl.getD m 0 := by
  intro xs
  induction xs with
  | nil =>
    intro i tbl m _
    simp [sprd_vdd_set_apply]
  | cons x xs ih =>
    intro i tbl m hlen
    simp only [List.length_cons] at hlen
    rw [sprd_vdd_set_apply, ih (i + 1) (sprd_vdd_set_store tbl i x) m
      (by rw [sprd_vdd_set_store_length]; omega),
      sprd_vdd_set_store_getD tbl i x m (by omega)]
    by_cases h1 : i + 1 ≤ m
    · have h2 : i ≤ m := by omega
      have h3 : m ≠ i := by omega
      have h4 : m - i = (m - (i + 1)) + 1 := by omega
      simp only [h1, h2, h3, if_true, if_false]
      rw [h4, List.getElem?_cons_succ]
    · by_cases h2 : m = i
      · subst h2
        simp
      · have h3 : ¬ i ≤ m := by omega
        simp [h1, h2, h3]

/-- What `sprd_vdd_set` leaves in slot `k` of the voltage table. -/
theorem sprd_vdd_set_slot (scan : Scanner) (conf : cpufreq_conf) (buf : List Char)
    (k : Nat) (hlen : conf.vdduv_tbl.length = FREQ_TABLE_SIZE) :
    vdduv_at (sprd_vdd_set scan conf buf) k =
      match (sprd_vdd_set_scan scan (MAX_UC + 1) buf)[k]? with
      | some x => vdd_slot_after (vdduv_at conf k) x
      | none => vdduv_at conf k := by
  have hl := sprd_vdd_set_scan_length scan (MAX_UC + 1) buf
  have h := sprd_vdd_set_apply_getD (sprd_vdd_set_scan scan (MAX_UC + 1) buf) 0
    conf.vdduv_tbl k (by
      rw [hlen]
      simp only [MAX_UC, UC4, FREQ_TABLE_SIZE] at hl ⊢
      omega)
  simpa [vdduv_at, sprd_vdd_set] using h

/-- A value above 1400 is stored as the maximum. -/
theorem vdd_slot_after_above (old : Nat) (x : Int) (hx : 1400 < x) :
    vdd_slot_after old x = 1400000 := by
  have hc : vdd_clamp x = 1400 := by
    simp [vdd_clamp, ARMVOLT_MAX, hx]
  have h25 : Int.tmod 1400 25 = 0 := by decide
  have hw : vdd_word 1400 = 1400000 := by decide
  rw [vdd_slot_after, hc, if_pos h25, hw]

/-- A multiple of 25 that is at most 1400 is stored times 1000, as a 32-bit word. -/
theorem vdd_slot_after_multiple (old : Nat) (x : Int) (hx : x ≤ 1400) (hd : 25 ∣ x) :
    vdd_slot_after old x = vdd_word x := by
  have hc : vdd_clamp x = x := by
    have : ¬ 1400 < x := by omega
    simp [vdd_clamp, ARMVOLT_MAX, this]
  rw [vdd_slot_after, hc, if_pos (Int.tmod_eq_zero_of_dvd hd)]

/-- A value at most 1400 that is no multiple of 25 leaves the slot alone. -/
theorem vdd_slot_after_other (old : Nat) (x : Int) (hx : x ≤ 1400) (hd : ¬ 25 ∣ x) :
    vdd_slot_after old x = old := by
  have hc : vdd_clamp x = x := by
    have : ¬ 1400 < x := by omega
    simp [vdd_clamp, ARMVOLT_MAX, this]
  rw [vdd_slot_after, hc, if_neg (fun h => hd (Int.dvd_of_tmod_eq_zero h))]

/-- For a value between 0 and 1400 the stored word is the value times 1000 exactly. -/
theorem vdd_word_exact (x : Int) (h0 : 0 ≤ x) (hx : x ≤ 1400) :
    (vdd_word x : Int) = x * 1000 := by
  unfold vdd_word WORD
  omega

/-- C13 as stated fails.  Of the text `-25` the integer `x = -25` is consumed; it is at
most 1400 and a multiple of 25, and slot 0 then holds 4,294,942,296 uV, which is not
`x * 1000`. -/
theorem vdd_set_negative_counterexample :
    (sprd_vdd_set_scan sscanf_d_n (MAX_UC + 1) ['-', '2', '5'])[0]? = some (-25) ∧
    (-25 : Int) ≤ 1400 ∧ (25 : Int) ∣ -25 ∧
    vdduv_at (sprd_vdd_set sscanf_d_n reference_conf ['-', '2', '5']) 0 = 4294942296 ∧
    (vdduv_at (sprd_vdd_set sscanf_d_n reference_conf ['-', '2', '5']) 0 : Int) ≠
      -25 * 1000 := by
  decide

/-- C13 amended.  Clamping and granularity of the editor, for every scanner, input text
and position `k` of a consumed integer `x` (millivolts): if `x > 1400` slot `k` is stored
as the maximum 1,400,000 uV; otherwise, if `x` is a multiple of 25 and `x >= 0`, slot `k`
is stored as `x * 1000` uV; and if `x` is no multiple of 25, slot `k` keeps its prior
value. -/
theorem vdd_set_clamp_and_step (scan : Scanner) (conf : cpufreq_conf) (buf : List Char)
    (k : Nat) (x : Int) (hlen : conf.vdduv_tbl.length = FREQ_TABLE_SIZE)
    (hx : (sprd_vdd_set_scan scan (MAX_UC + 1) buf)[k]? = some x) :
    (1400 < x → vdduv_at (sprd_vdd_set scan conf buf) k = ARMVOLT_MAX) ∧
    (0 ≤ x → x ≤ 1400 → 25 ∣ x →
      (vdduv_at (sprd_vdd_set scan conf buf) k : Int) = x * 1000) ∧
    (x ≤ 1400 → ¬ 25 ∣ x →
      vdduv_at (sprd_vdd_set scan conf buf) k = vdduv_at conf k) := by
  have hslot := sprd_vdd_set_slot scan conf buf k hlen
  rw [hx] at hslot
  simp only at hslot
  refine ⟨fun h => ?_, fun h0 h hd => ?_, fun h hd => ?_⟩
  · rw [hslot, vdd_slot_after_above _ x h]
    rfl
  · rw [hslot, vdd_slot_after_multiple _ x h hd]
    exact vdd_word_exact x h0 h
  · rw [hslot, vdd_slot_after_other _ x h hd]

/-- C13 amended, at a concrete input: the text `1500 30 25`, whose first value is
clamped, whose second is dropped and whose third is stored as 25,000 uV. -/
theorem vdd_set_clamp_and_step_witness :
    reference_conf.vdduv_tbl.length = FREQ_TABLE_SIZE ∧
    (sprd_vdd_set_scan sscanf_d_n (MAX_UC + 1)
      ['1', '5', '0', '0', ' ', '3', '0', ' ', '2', '5'])[0]? = some 1500 ∧
    (sprd_vdd_set_scan sscanf_d_n (MAX_UC + 1)
      ['1', '5', '0', '0', ' ', '3', '0', ' ', '2', '5'])[2]? = some 25 ∧
    vdduv_at (sprd_vdd_set sscanf_d_n reference_conf
      ['1', '5', '0', '0', ' ', '3', '0', ' ', '2', '5']) 0 = ARMVOLT_MAX ∧
    (vdduv_at (sprd_vdd_set sscanf_d_n reference_conf
      ['1', '5', '0', '0', ' ', '3', '0', ' ', '2', '5']) 2 : Int) = 25 * 1000 :=
  ⟨by decide, by decide, by decide,
   (vdd_set_clamp_and_step sscanf_d_n reference_conf
     ['1', '5', '0', '0', ' ', '3', '0', ' ', '2', '5'] 0 1500 (by decide)
     (by decide)).1 (by decide),
   (vdd_set_clamp_and_step sscanf_d_n reference_conf
     ['1', '5', '0', '0', ' ', '3', '0', ' ', '2', '5'] 2 25 (by decide)
     (by decide)).2.1 (by decide) (by decide) (by decide)⟩

/-- C14, the code at failing inputs.  Every entry of the reference voltage table lies
within `[650000, 1400000]`.  After the text `0` slot 0 holds 0 uV, after the text `600`
it holds 600,000 uV, and after the text `-25` it holds 4,294,942,296 uV: the range no
longer holds. -/
theorem vdd_set_breaks_range :
    vdduv_in_range reference_conf ∧
    vdduv_at (sprd_vdd_set sscanf_d_n reference_conf ['0']) 0 = 0 ∧
    ¬ vdduv_in_range (sprd_vdd_set sscanf_d_n reference_conf ['0']) ∧
    vdduv_at (sprd_vdd_set sscanf_d_n reference_conf ['6', '0', '0']) 0 = 600000 ∧
    ¬ vdduv_in_range (sprd_vdd_set sscanf_d_n reference_conf ['6', '0', '0']) ∧
    vdduv_at (sprd_vdd_set sscanf_d_n reference_conf ['-', '2', '5']) 0 = 4294942296 ∧
    ¬ vdduv_in_range (sprd_vdd_set sscanf_d_n reference_conf ['-', '2', '5']) := by
  decide

/-- C15 as stated fails.  The text `1200` sets the slot of `OC5`, the fastest level,
and leaves the slot of `NOC` at its 850,000 uV; and of the text
`1100 1050 1000 950 900 875 825` seven values are consumed, the sixth and seventh
reaching the slots of `NOC` and `UC1`. -/
theorem vdd_set_positions_counterexample :
    vdduv_at (sprd_vdd_set sscanf_d_n reference_conf ['1', '2', '0', '0']) OC5 = 1200000 ∧
    vdduv_at (sprd_vdd_set sscanf_d_n reference_conf ['1', '2', '0', '0']) NOC = 850000 ∧
    (sprd_vdd_set_scan sscanf_d_n (MAX_UC + 1)
      ['1', '1', '0', '0', ' ', '1', '0', '5', '0', ' ', '1', '0', '0', '0', ' ',
       '9', '5', '0', ' ', '9', '0', '0', ' ', '8', '7', '5', ' ', '8', '2', '5']).length
      = 7 ∧
    vdduv_at (sprd_vdd_set sscanf_d_n reference_conf
      ['1', '1', '0', '0', ' ', '1', '0', '5', '0', ' ', '1', '0', '0', '0', ' ',
       '9', '5', '0', ' ', '9', '0', '0', ' ', '8', '7', '5', ' ', '8', '2', '5']) NOC
      = 875000 ∧
    vdduv_at (sprd_vdd_set sscanf_d_n reference_conf
      ['1', '1', '0', '0', ' ', '1', '0', '5', '0', ' ', '1', '0', '0', '0', ' ',
       '9', '5', '0', ' ', '9', '0', '0', ' ', '8', '7', '5', ' ', '8', '2', '5']) UC1
      = 825000 := by
  decide

/-- C15 amended.  `sprd_vdd_set` reads integers from left to right, each read starting
where the one before ended, and stops at the first failed read; it consumes at most
`MAX_UC + 1 = 10` values; the `k`-th consumed value (0-based) is the millivolt setting
for table slot `k`, so the values address the levels from the fastest one down (`OC5`,
`OC4`, ..., `NOC`, `UC1`, ..., `UC4`); slots beyond the consumed values keep their
content. -/
theorem vdd_set_positions (scan : Scanner) (conf : cpufreq_conf) (buf : List Char)
    (hlen : conf.vdduv_tbl.length = FREQ_TABLE_SIZE) :
    (sprd_vdd_set_scan scan (MAX_UC + 1) buf).length ≤ MAX_UC + 1 ∧
    MAX_UC + 1 = 10 ∧ OC5 = 0 ∧
    (scan buf = none → sprd_vdd_set_scan scan (MAX_UC + 1) buf = []) ∧
    (∀ v c, scan buf = some (v, c) →
      sprd_vdd_set_scan scan (MAX_UC + 1) buf =
        v :: sprd_vdd_set_scan scan MAX_UC (buf.drop c)) ∧
    (∀ k x, (sprd_vdd_set_scan scan (MAX_UC + 1) buf)[k]? = some x →
      vdduv_at (sprd_vdd_set scan conf buf) k = vdd_slot_after (vdduv_at conf k) x) ∧
    (∀ k, (sprd_vdd_set_scan scan (MAX_UC + 1) buf).length ≤ k →
      vdduv_at (sprd_vdd_set scan conf buf) k = vdduv_at conf k) ∧
    (sprd_vdd_set scan conf buf).freq_tbl = conf.freq_tbl := by
  refine ⟨sprd_vdd_set_scan_length scan (MAX_UC + 1) buf, rfl, rfl, fun h => ?_,
    fun v c h => ?_, fun k x hx => ?_, fun k hk => ?_, rfl⟩
  · simp [sprd_vdd_set_scan, h]
  · simp [sprd_vdd_set_scan, h]
  · have hslot := sprd_vdd_set_slot scan conf buf k hlen
    rw [hx] at hslot
    exact hslot
  · have hslot := sprd_vdd_set_slot scan conf buf k hlen
    rw [List.getElem?_eq_none hk] at hslot
    exact hslot

/-- C15 amended, at a concrete input: the text `1200` reaches the slot of `OC5`. -/
theorem vdd_set_positions_witness :
    reference_conf.vdduv_tbl.length = FREQ_TABLE_SIZE ∧
    (sprd_vdd_set_scan sscanf_d_n (MAX_UC + 1) ['1', '2', '0', '0'])[0]? = some 1200 ∧
    vdduv_at (sprd_vdd_set sscanf_d_n reference_conf ['1', '2', '0', '0']) 0 =
      vdd_slot_after (vdduv_at reference_conf 0) 1200 :=
  ⟨by decide, by decide,
   (vdd_set_positions sscanf_d_n reference_conf ['1', '2', '0', '0']
     (by decide)).2.2.2.2.2.1 0 1200 (by decide)⟩

/-- Of a text that starts with `1500m` exactly one value is read, 1500. -/
theorem sprd_vdd_set_scan_1500m (n : Nat) (tail : List Char) :
    sprd_vdd_set_scan sscanf_d_n (n + 1) ('1' :: '5' :: '0' :: '0' :: 'm' :: tail) =
      [1500] := by
  have h1 : sscanf_d_n ('1' :: '5' :: '0' :: '0' :: 'm' :: tail) = some (1500, 4) := rfl
  have h2 : sscanf_d_n ('m' :: tail) = none := rfl
  cases n with
  | zero => simp [sprd_vdd_set_scan, h1]
  | succ n => simp [sprd_vdd_set_scan, h1, h2]

/-- With the reference frequencies the text of `sprd_vdd_get` starts with `1500m`. -/
theorem sprd_vdd_get_head (conf : cpufreq_conf)
    (htbl : conf.freq_tbl = sc8810_cpufreq_table_data.freq_tbl) :
    ∃ tail, sprd_vdd_get conf = '1' :: '5' :: '0' :: '0' :: 'm' :: tail := by
  have hf : freq_at conf 0 = 1500000 := by
    rw [reference_freq_at conf htbl 0 (by decide)]
  have hd : Nat.toDigits 10 (1500000 / 1000) = ['1', '5', '0', '0'] := by decide
  have hline : sprd_vdd_get conf =
      sprd_vdd_get_line conf 0 ++ sprd_vdd_get_loop conf MAX_UC 1 := rfl
  rw [hline, sprd_vdd_get_line, hf, hd]
  exact ⟨_, rfl⟩

/-- C12 as stated fails.  On the reference table `sprd_vdd_get` renders
`1500mhz: 1100 mV` as its first line; `sprd_vdd_set` applied to that text reads the
frequency 1500 as a voltage and stores 1,400,000 uV in slot 0, which held 1,100,000. -/
theorem vdd_round_trip_counterexample :
    vdduv_in_range reference_conf ∧
    vdduv_at reference_conf 0 = 1100000 ∧
    vdduv_at (sprd_vdd_set sscanf_d_n reference_conf (sprd_vdd_get reference_conf)) 0 =
      1400000 ∧
    (sprd_vdd_set sscanf_d_n reference_conf (sprd_vdd_get reference_conf)).vdduv_tbl ≠
      reference_conf.vdduv_tbl := by
  decide

/-- C12 amended.  For every voltage table over the reference frequencies, applying
`sprd_vdd_set` to the exact text produced by `sprd_vdd_get` consumes only the leading
`1500` of the first line: slot 0 is stored as 1,400,000 uV and every other entry of the
voltage table, as well as the frequency table, is left unchanged. -/
theorem vdd_round_trip_slot0 (conf : cpufreq_conf)
    (htbl : conf.freq_tbl = sc8810_cpufreq_table_data.freq_tbl)
    (hlen : conf.vdduv_tbl.length = FREQ_TABLE_SIZE) :
    sprd_vdd_set_scan sscanf_d_n (MAX_UC + 1) (sprd_vdd_get conf) = [1500] ∧
    vdduv_at (sprd_vdd_set sscanf_d_n conf (sprd_vdd_get conf)) 0 = 1400000 ∧
    (∀ k, 1 ≤ k →
      vdduv_at (sprd_vdd_set sscanf_d_n conf (sprd_vdd_get conf)) k = vdduv_at conf k) ∧
    (sprd_vdd_set sscanf_d_n conf (sprd_vdd_get conf)).freq_tbl = conf.freq_tbl := by
  obtain ⟨tail, htext⟩ := sprd_vdd_get_head conf htbl
  have hscan : sprd_vdd_set_scan sscanf_d_n (MAX_UC + 1) (sprd_vdd_get conf) = [1500] := by
    rw [htext]
    exact sprd_vdd_set_scan_1500m MAX_UC tail
  refine ⟨hscan, ?_, fun k hk => ?_, rfl⟩
  · have hslot := sprd_vdd_set_slot sscanf_d_n conf (sprd_vdd_get conf) 0 hlen
    rw [hscan] at hslot
    rw [hslot]
    exact vdd_slot_after_above _ 1500 (by decide)
  · have hslot := sprd_vdd_set_slot sscanf_d_n conf (sprd_vdd_get conf) k hlen
    rw [hscan] at hslot
    have hnone : ([1500] : List Int)[k]? = none :=
      List.getElem?_eq_none (by simpa using hk)
    rw [hnone] at hslot
    exact hslot

/-- C12 amended, at a concrete input: the reference table. -/
theorem vdd_round_trip_slot0_witness :
    reference_conf.freq_tbl = sc8810_cpufreq_table_data.freq_tbl ∧
    reference_conf.vdduv_tbl.length = FREQ_TABLE_SIZE ∧
    vdduv_at (sprd_vdd_set sscanf_d_n reference_conf (sprd_vdd_get reference_conf)) 0 =
      1400000 :=
  ⟨rfl, by decide, (vdd_round_trip_slot0 reference_conf rfl (by decide)).2.1⟩

end Sc8810
